import Mathlib

/-!
Verification development for the office NFL pick'em pool application.

The definitions below are a shallow embedding of the Python source:

* `app/routers/dashboard.py` — season leaderboard and weekly lunch engine,
* `app/services/nfl/importer.py` — week-schedule importer,
* `app/services/nfl/live.py` — live score cache,
* `app/services/nfl/espn.py` — scoreboard event parsing,
* `app/routers/picks.py` — pick/tiebreaker save endpoint.

Modelling conventions:

* SQLAlchemy tables are Lean lists of structures; a query with a filter is a
  `List.filter`, `query(...).first()` is `List.find?`, mutating a fetched ORM
  row is `replaceFirst` at the first row matching the same filter.
* Python dicts (which preserve insertion order) are association lists built
  with `setA` (insert-or-update keeping insertion order); `dict.get` is
  `lookupA`.
* `datetime` values are UTC epoch numbers (`Int`); scores and tiebreaker
  guesses are `Int` as in the integer database columns; counts are `Nat`.
* Python `max(xs, key=k)` returns the first maximal element; this is
  `pyMaxBy` below.  Leaderboard accuracy `correct/picks` (a Python float
  division of two small integers, whose ordering coincides with the exact
  ordering of rationals) is modelled as `ℚ`.
-/

namespace Pickems

/-! ## Generic helpers modelling Python built-ins -/

/-- `d.get(k)` on an association list (first matching key wins; `setA` keeps
keys unique, matching a Python dict). -/
def lookupA {κ α : Type} [BEq κ] (l : List (κ × α)) (k : κ) : Option α :=
  (l.find? (fun kv => kv.1 == k)).map (·.2)

/-- `d[k] = v` on an insertion-ordered dict: update in place if the key is
present, otherwise append at the end. -/
def setA {κ α : Type} [BEq κ] : List (κ × α) → κ → α → List (κ × α)
  | [], k, v => [(k, v)]
  | kv :: rest, k, v => if kv.1 == k then (k, v) :: rest else kv :: setA rest k v

/-- `d[k] = d.get(k, 0) + 1` on an insertion-ordered dict. -/
def incr {κ : Type} [BEq κ] : List (κ × Nat) → κ → List (κ × Nat)
  | [], k => [(k, 1)]
  | kv :: rest, k => if kv.1 == k then (kv.1, kv.2 + 1) :: rest else kv :: incr rest k

/-- Python `max(l, key=...)`: first maximal element; `ltb a b` means the key
of `b` is strictly greater than the key of `a`.  `none` on an empty list
(where Python would raise). -/
def pyMaxBy {α : Type} (ltb : α → α → Bool) : List α → Option α
  | [] => none
  | x :: xs => some (xs.foldl (fun acc y => if ltb acc y then y else acc) x)

/-- Python `max` over a list of naturals, `0` when empty (the source guards
with `if rows else 0`). -/
def pyMaxNat : List Nat → Nat
  | [] => 0
  | x :: xs => xs.foldl Nat.max x

/-- Python `min` over a list of naturals, `0` when empty. -/
def pyMinNat : List Nat → Nat
  | [] => 0
  | x :: xs => xs.foldl Nat.min x

/-- Replace the first element satisfying `p` (the row a `query(...).first()`
returned and the handler then mutated). -/
def replaceFirst {α : Type} (p : α → Bool) (x' : α) : List α → List α
  | [] => []
  | x :: rest => if p x then x' :: rest else x :: replaceFirst p x' rest

/-- Truthiness of an optional string (`if s:` in Python): present and
non-empty. -/
def pyTruthy : Option String → Bool
  | none => false
  | some s => s != ""

/-! ## Domain model (`app/models/*.py`) -/

inductive GameStatus
  | scheduled
  | inProgress
  | final
  deriving DecidableEq, Repr

structure Game where
  id : Nat
  seasonId : Nat
  weekId : Nat
  homeTeamId : Nat
  awayTeamId : Nat
  startTime : Int
  status : GameStatus
  homeScore : Int
  awayScore : Int
  providerGameId : Option String
  deriving DecidableEq, Repr

structure PickRow where
  userId : Nat
  gameId : Nat
  chosenTeamId : Nat
  deriving DecidableEq, Repr

structure TieBreakerRow where
  userId : Nat
  weekId : Nat
  guessPoints : Int
  deriving DecidableEq, Repr

structure UserRow where
  id : Nat
  username : String
  firstName : String
  lastName : String
  deriving DecidableEq, Repr

structure WeekRow where
  id : Nat
  seasonId : Nat
  weekNumber : Nat
  seasonType : Nat
  firstKickoffAt : Int
  deriving DecidableEq, Repr

structure SeasonRow where
  id : Nat
  year : Int
  isActive : Bool
  deriving DecidableEq, Repr

structure DB where
  seasons : List SeasonRow
  weeks : List WeekRow
  games : List Game
  picks : List PickRow
  users : List UserRow
  tiebreakers : List TieBreakerRow
  deriving DecidableEq, Repr

/-- Python `str.upper()` (kernel-computable character map). -/
def strUpper (s : String) : String :=
  String.mk (s.data.map Char.toUpper)

/-- Python `str.lower()` (kernel-computable character map). -/
def strLower (s : String) : String :=
  String.mk (s.data.map Char.toLower)

/-- Python `str.strip()` (kernel-computable; trims the ASCII whitespace
relevant to this application). -/
def strTrim (s : String) : String :=
  String.mk
    ((((s.data.dropWhile Char.isWhitespace).reverse).dropWhile Char.isWhitespace).reverse)

/-- `Week.is_locked`: `now >= first_kickoff_at`. -/
def weekIsLocked (w : WeekRow) (now : Int) : Bool :=
  now ≥ w.firstKickoffAt

/-- `User.display_name` property: `f"{first} {last}".strip()`. -/
def displayName (u : UserRow) : String :=
  strTrim (u.firstName ++ " " ++ u.lastName)

/-- `u.display_name or u.username` (the `or` also replaces an empty name). -/
def nameOrUsername (u : UserRow) : String :=
  if displayName u = "" then u.username else displayName u

/-- `name_by_id.get(uid, f"User {uid}")` over users fetched by id. -/
def nameOf (users : List UserRow) (uid : Nat) : String :=
  match users.find? (fun u => u.id == uid) with
  | some u => nameOrUsername u
  | none => "User " ++ toString uid

/-! ## Outcome & ranking engine (`app/routers/dashboard.py`) -/

/-- Winner resolution for a Final game (dashboard.py lines 166–172 / 238–244):
home wins on a higher home score, away wins on a higher away score, a tie
yields no winner. -/
def gameWinner (g : Game) : Option Nat :=
  if g.homeScore > g.awayScore then some g.homeTeamId
  else if g.awayScore > g.homeScore then some g.awayTeamId
  else none

/-- `winners_by_game.get(p.game_id)` flattened: `none` both for a missing key
and for a stored tie (`None`). -/
def decidedWinnerOf (wbg : List (Nat × Option Nat)) (gid : Nat) : Option Nat :=
  match lookupA wbg gid with
  | some (some t) => some t
  | _ => none

/-- One iteration of the per-pick counting loop: skip a pick whose game has
no decided winner, else bump `pick_counts` and, on a matching choice,
`correct_counts`. -/
def tallyStep (wbg : List (Nat × Option Nat))
    (acc : List (Nat × Nat) × List (Nat × Nat)) (p : PickRow) :
    List (Nat × Nat) × List (Nat × Nat) :=
  match decidedWinnerOf wbg p.gameId with
  | none => acc
  | some t =>
    (incr acc.1 p.userId, if p.chosenTeamId == t then incr acc.2 p.userId else acc.2)

/-- The per-pick counting loop shared by `_season_leaderboard` (lines
182–188) and `_weekly_lunch` (lines 254–260): returns
`(pick_counts, correct_counts)`. -/
def tallyCounts (wbg : List (Nat × Option Nat)) (ps : List PickRow) :
    List (Nat × Nat) × List (Nat × Nat) :=
  ps.foldl (tallyStep wbg) ([], [])

/-- `winners_by_game` dict built over a list of final games. -/
def winnersByGame (finals : List Game) : List (Nat × Option Nat) :=
  finals.foldl (fun m g => setA m g.id (gameWinner g)) []

/-- Ids of final games with a decided (non-tie) winner, in dict order. -/
def decidedIdsOf (finals : List Game) : List Nat :=
  ((winnersByGame finals).filter (fun kv => kv.2.isSome)).map (·.1)

/-- `_active_season`: season of the selected week, else the active (or most
recent) season.  `order_by(year.desc()).first()` is modelled as the first
row holding the maximal year. -/
def activeSeason (db : DB) (week? : Option WeekRow) : Option SeasonRow :=
  match week? with
  | some w => db.seasons.find? (fun s => s.id == w.seasonId)
  | none =>
    match pyMaxBy (fun a b => a.year < b.year) (db.seasons.filter (·.isActive)) with
    | some s => some s
    | none => pyMaxBy (fun a b => a.year < b.year) db.seasons

/-- Final games of the season considered by `_season_leaderboard`. -/
def boardFinalGames (db : DB) (season : SeasonRow) : List Game :=
  db.games.filter (fun g => g.seasonId == season.id && g.status == GameStatus.final)

def boardDecidedIds (db : DB) (season : SeasonRow) : List Nat :=
  decidedIdsOf (boardFinalGames db season)

/-- `Pick.game_id.in_(decided_game_ids)` query. -/
def boardPicks (db : DB) (season : SeasonRow) : List PickRow :=
  db.picks.filter (fun p => (boardDecidedIds db season).contains p.gameId)

def boardPickCounts (db : DB) (season : SeasonRow) : List (Nat × Nat) :=
  (tallyCounts (winnersByGame (boardFinalGames db season)) (boardPicks db season)).1

def boardCorrectCounts (db : DB) (season : SeasonRow) : List (Nat × Nat) :=
  (tallyCounts (winnersByGame (boardFinalGames db season)) (boardPicks db season)).2

structure BoardEntry where
  userId : Nat
  name : String
  correct : Nat
  picks : Nat
  pct : ℚ
  deriving DecidableEq, Repr

/-- The unsorted leaderboard rows, in `pick_counts` key order. -/
def boardEntries (db : DB) (season : SeasonRow) : List BoardEntry :=
  ((boardPickCounts db season).map (·.1)).map fun uid =>
    let corr := (lookupA (boardCorrectCounts db season) uid).getD 0
    let total := (lookupA (boardPickCounts db season) uid).getD 0
    { userId := uid
      name := nameOf db.users uid
      correct := corr
      picks := total
      pct := if total = 0 then 0 else (corr : ℚ) / (total : ℚ) }

/-- The sort key ordering of `board.sort(key=lambda x: (-correct, -pct,
name.lower()))`: more correct first, then higher accuracy, then
case-insensitively smaller name. -/
def entryLE (a b : BoardEntry) : Prop :=
  b.correct < a.correct ∨
    (a.correct = b.correct ∧
      (b.pct < a.pct ∨ (a.pct = b.pct ∧ strLower a.name ≤ strLower b.name)))

instance : DecidableRel entryLE := fun a b => by
  unfold entryLE; infer_instance

/-- `_season_leaderboard`: returns the top-10 sorted board together with the
number of decided games. -/
def seasonLeaderboard (db : DB) (week? : Option WeekRow) : List BoardEntry × Nat :=
  match activeSeason db week? with
  | none => ([], 0)
  | some season =>
    if (boardDecidedIds db season).isEmpty then ([], 0)
    else if (boardPickCounts db season).isEmpty then ([], (boardDecidedIds db season).length)
    else ((List.insertionSort entryLE (boardEntries db season)).take 10,
          (boardDecidedIds db season).length)

/-! ### Weekly lunch (`_weekly_lunch`) -/

/-- Games of the selected week. -/
def weekGames (db : DB) (w : WeekRow) : List Game :=
  db.games.filter (fun g => g.weekId == w.id)

def lunchFinalGames (db : DB) (w : WeekRow) : List Game :=
  (weekGames db w).filter (fun g => g.status == GameStatus.final)

/-- `week_finalized = decided_games == total_games`. -/
def lunchWeekFinalized (db : DB) (w : WeekRow) : Bool :=
  (lunchFinalGames db w).length == (weekGames db w).length

def lunchDecidedIds (db : DB) (w : WeekRow) : List Nat :=
  decidedIdsOf (lunchFinalGames db w)

/-- `weekly_picks`: empty unless some game is decided, else the picks on
decided games. -/
def lunchWeeklyPicks (db : DB) (w : WeekRow) : List PickRow :=
  if (lunchDecidedIds db w).isEmpty then []
  else db.picks.filter (fun p => (lunchDecidedIds db w).contains p.gameId)

def lunchPickCounts (db : DB) (w : WeekRow) : List (Nat × Nat) :=
  (tallyCounts (winnersByGame (lunchFinalGames db w)) (lunchWeeklyPicks db w)).1

def lunchCorrectCounts (db : DB) (w : WeekRow) : List (Nat × Nat) :=
  (tallyCounts (winnersByGame (lunchFinalGames db w)) (lunchWeeklyPicks db w)).2

def lunchUserIds (db : DB) (w : WeekRow) : List Nat :=
  (lunchPickCounts db w).map (·.1)

/-- `tb_by_user = {t.user_id: t.guess_points for t in tbs}` over this week's
tiebreakers of participating users. -/
def lunchTbByUser (db : DB) (w : WeekRow) : List (Nat × Int) :=
  (db.tiebreakers.filter
      (fun t => t.weekId == w.id && (lunchUserIds db w).contains t.userId)).foldl
    (fun m t => setA m t.userId t.guessPoints) []

/-- `actual_total`: combined score of the chronologically last final game,
available only once the week is finalized (dashboard.py lines 279–287). -/
def lunchActualTotal (db : DB) (w : WeekRow) : Option Int :=
  if lunchWeekFinalized db w && !(lunchFinalGames db w).isEmpty then
    match pyMaxBy (fun a b => a.startTime < b.startTime) (lunchFinalGames db w) with
    | some lastGame => some (lastGame.homeScore + lastGame.awayScore)
    | none => none
  else none

/-- A row of `_weekly_lunch` (lines 290–301).  The source also stores a
display-only `pct` (float `correct/picks`) that no later lunch computation
reads; it is omitted here so the row stays kernel-decidable. -/
structure LunchRow where
  userId : Nat
  name : String
  correct : Nat
  picks : Nat
  tb : Option Int
  deriving DecidableEq, Repr

/-- The per-user rows of `_weekly_lunch` (lines 290–301). -/
def lunchRows (db : DB) (w : WeekRow) : List LunchRow :=
  (lunchUserIds db w).map fun uid =>
    { userId := uid
      name := nameOf db.users uid
      correct := (lookupA (lunchCorrectCounts db w) uid).getD 0
      picks := (lookupA (lunchPickCounts db w) uid).getD 0
      tb := lookupA (lunchTbByUser db w) uid }

def lunchMaxCorrect (db : DB) (w : WeekRow) : Nat :=
  pyMaxNat ((lunchRows db w).map (·.correct))

def lunchMinCorrect (db : DB) (w : WeekRow) : Nat :=
  pyMinNat ((lunchRows db w).map (·.correct))

def lunchWinners (db : DB) (w : WeekRow) : List LunchRow :=
  (lunchRows db w).filter (fun r => r.correct == lunchMaxCorrect db w)

/-- `losers`: users at the minimum correct count, only with more than one
participant. -/
def lunchLosers (db : DB) (w : WeekRow) : List LunchRow :=
  if 1 < (lunchRows db w).length then
    (lunchRows db w).filter (fun r => r.correct == lunchMinCorrect db w)
  else []

/-- `w.get("tb") is not None and w["tb"] <= actual_total`. -/
def winnerEligible (total : Int) (r : LunchRow) : Bool :=
  match r.tb with
  | some g => g ≤ total
  | none => false

/-- The `key=lambda w: w["tb"]` comparison used by `max(eligible, ...)`
(every eligible row has a guess, so `getD 0` is never taken). -/
def tbLt (a b : LunchRow) : Bool :=
  a.tb.getD 0 < b.tb.getD 0

/-- Winner tiebreak (dashboard.py lines 312–321): with a finalized week, more
than one tied winner and an actual total, restrict to guesses not exceeding
the total and keep the highest; otherwise keep the whole group.  Returns the
remaining rows and the `tb_applied` flag. -/
def applyWinnerTiebreak (winners : List LunchRow) (weekFinalized : Bool)
    (actualTotal : Option Int) : List LunchRow × Bool :=
  match actualTotal with
  | none => (winners, false)
  | some total =>
    if weekFinalized && 1 < winners.length then
      let eligible := winners.filter (winnerEligible total)
      match pyMaxBy tbLt eligible with
      | some best => ([best], true)
      | none => (winners, false)
    else (winners, false)

/-- `_loss_key` (dashboard.py lines 330–337): three-tier badness.  The source
pairs tier 3 with `float("inf")`; since every tier-3 key carries the same
second component, the constant `0` compares identically. -/
def lossKey (total : Int) (r : LunchRow) : Nat × Int :=
  match r.tb with
  | none => (3, 0)
  | some g => if g ≤ total then (1, total - g) else (2, g - total)

/-- Lexicographic `<` on `(tier, distance)` pairs as Python compares the
`_loss_key` tuples. -/
def lexLtNI (p q : Nat × Int) : Bool :=
  p.1 < q.1 || (p.1 == q.1 && p.2 < q.2)

/-- Comparing rows by `_loss_key`. -/
def lossLt (total : Int) (a b : LunchRow) : Bool :=
  lexLtNI (lossKey total a) (lossKey total b)

/-- Loser tiebreak (dashboard.py lines 323–344): with a finalized week, more
than one tied loser and an actual total, the single worst candidate by
`_loss_key` becomes the sole loser. -/
def applyLoserTiebreak (losers : List LunchRow) (weekFinalized : Bool)
    (actualTotal : Option Int) : List LunchRow × Bool :=
  match actualTotal with
  | none => (losers, false)
  | some total =>
    if weekFinalized && 1 < losers.length then
      match pyMaxBy (lossLt total) losers with
      | some worst => ([worst], true)
      | none => (losers, false)
    else (losers, false)

structure LunchResult where
  status : String
  totalGames : Nat := 0
  decidedGames : Nat := 0
  winnerNames : List String := []
  loserNames : List String := []
  winnerUids : List Nat := []
  loserUids : List Nat := []
  actualTotal : Option Int := none
  tbApplied : Bool := false
  loserTbApplied : Bool := false
  deriving DecidableEq, Repr

/-- `_weekly_lunch`: full weekly outcome computation. -/
def weeklyLunch (db : DB) (week? : Option WeekRow) : LunchResult :=
  match week? with
  | none => { status := "no_week" }
  | some w =>
    if (weekGames db w).length = 0 then
      { status := "no_games", totalGames := 0, decidedGames := 0 }
    else if (lunchPickCounts db w).isEmpty then
      { status := "pending"
        totalGames := (weekGames db w).length
        decidedGames := (lunchFinalGames db w).length }
    else
      let winPair := applyWinnerTiebreak (lunchWinners db w) (lunchWeekFinalized db w)
        (lunchActualTotal db w)
      let losePair := applyLoserTiebreak (lunchLosers db w) (lunchWeekFinalized db w)
        (lunchActualTotal db w)
      { status :=
          if lunchWeekFinalized db w && 0 < (winPair.1.map (·.name)).length then "decided"
          else "pending"
        totalGames := (weekGames db w).length
        decidedGames := (lunchFinalGames db w).length
        winnerNames := winPair.1.map (·.name)
        loserNames := losePair.1.map (·.name)
        winnerUids := winPair.1.map (·.userId)
        loserUids := losePair.1.map (·.userId)
        actualTotal := lunchActualTotal db w
        tbApplied := winPair.2
        loserTbApplied := losePair.2 }

/-! ## Association-list and fold lemmas -/

theorem setA_of_keys_ne {κ α : Type} [BEq κ] [LawfulBEq κ]
    (l : List (κ × α)) (k : κ) (v : α) (h : ∀ kv ∈ l, kv.1 ≠ k) :
    setA l k v = l ++ [(k, v)] := by
  induction l with
  | nil => rfl
  | cons kv rest ih =>
    have hne : (kv.1 == k) = false := by
      simpa using h kv (List.mem_cons_self kv rest)
    simp [setA, hne, ih (fun kv' h' => h kv' (List.mem_cons_of_mem _ h'))]

theorem winnersFold_eq_append (l : List Game) (acc : List (Nat × Option Nat))
    (hfresh : ∀ g ∈ l, ∀ kv ∈ acc, kv.1 ≠ g.id)
    (hnodup : (l.map (fun g => g.id)).Nodup) :
    l.foldl (fun m g => setA m g.id (gameWinner g)) acc
      = acc ++ l.map (fun g => (g.id, gameWinner g)) := by
  induction l generalizing acc with
  | nil => simp
  | cons g rest ih =>
    simp only [List.map_cons, List.nodup_cons, List.mem_map] at hnodup
    simp only [List.foldl_cons]
    rw [setA_of_keys_ne _ _ _ (fun kv hkv => hfresh g (by simp) kv hkv)]
    rw [ih]
    · simp
    · intro g' hg' kv hkv
      rcases List.mem_append.mp hkv with hmem | hmem
      · exact hfresh g' (List.mem_cons_of_mem _ hg') kv hmem
      · simp only [List.mem_singleton] at hmem
        subst hmem
        intro hcontra
        exact hnodup.1 ⟨g', hg', hcontra.symm⟩
    · exact hnodup.2

theorem winnersByGame_eq_map (finals : List Game)
    (h : (finals.map (fun g => g.id)).Nodup) :
    winnersByGame finals = finals.map (fun g => (g.id, gameWinner g)) := by
  simpa [winnersByGame] using winnersFold_eq_append finals [] (by simp) h

theorem mem_decidedIdsOf (finals : List Game)
    (h : (finals.map (fun g => g.id)).Nodup) (gid : Nat) :
    gid ∈ decidedIdsOf finals ↔
      ∃ g ∈ finals, g.id = gid ∧ (gameWinner g).isSome := by
  simp only [decidedIdsOf, winnersByGame_eq_map finals h, List.mem_map,
    List.mem_filter]
  constructor
  · rintro ⟨⟨a, b⟩, ⟨⟨g, hg, hge⟩, hsome⟩, hfst⟩
    obtain ⟨h1, h2⟩ := Prod.mk.injEq .. ▸ hge
    exact ⟨g, hg, by simp_all⟩
  · rintro ⟨g, hg, hid, hsome⟩
    exact ⟨(g.id, gameWinner g), ⟨⟨g, hg, rfl⟩, by simpa using hsome⟩, hid⟩

theorem filter_filter_subsume {α : Type} (q r : α → Bool)
    (h : ∀ a, r a = true → q a = true) (l : List α) :
    (l.filter q).filter r = l.filter r := by
  induction l with
  | nil => rfl
  | cons x rest ih =>
    by_cases hr : r x = true
    · have hq := h x hr
      simp [List.filter_cons, hq, hr, ih]
    · by_cases hq : q x = true <;>
        simp [List.filter_cons, hq, hr, ih]

theorem nodup_ids_filter (l : List Game) (p : Game → Bool)
    (h : (l.map (fun g => g.id)).Nodup) :
    ((l.filter p).map (fun g => g.id)).Nodup :=
  h.sublist (List.Sublist.map (fun g => g.id) (List.filter_sublist l))
/-- The database with every pick on game `gid` removed. -/
def dropPicksOn (db : DB) (gid : Nat) : DB :=
  { db with picks := db.picks.filter (fun p => p.gameId != gid) }

theorem not_mem_decidedIdsOf (finals : List Game) (db : DB) (g : Game)
    (hnodup : (db.games.map (fun x => x.id)).Nodup)
    (hsub : ∀ x ∈ finals, x ∈ db.games)
    (hnf : (finals.map (fun x => x.id)).Nodup)
    (hmem : g ∈ db.games) (hwnone : gameWinner g = none) :
    g.id ∉ decidedIdsOf finals := by
  intro hc
  rw [mem_decidedIdsOf _ hnf] at hc
  obtain ⟨g', hg', hid, hsome⟩ := hc
  have hg'db : g' ∈ db.games := hsub g' hg'
  have heq : g' = g := List.inj_on_of_nodup_map hnodup hg'db hmem hid
  rw [heq, hwnone] at hsome
  simp at hsome

theorem boardPicks_drop (db : DB) (season : SeasonRow) (gid : Nat)
    (hnot : gid ∉ boardDecidedIds db season) :
    boardPicks (dropPicksOn db gid) season = boardPicks db season := by
  show (db.picks.filter (fun p => p.gameId != gid)).filter
        (fun p => (boardDecidedIds db season).contains p.gameId)
      = db.picks.filter (fun p => (boardDecidedIds db season).contains p.gameId)
  apply filter_filter_subsume
  intro p hp
  have hmem : p.gameId ∈ boardDecidedIds db season := by
    simpa using hp
  have hne : p.gameId ≠ gid := fun e => hnot (e ▸ hmem)
  simpa using hne

theorem lunchWeeklyPicks_drop (db : DB) (w : WeekRow) (gid : Nat)
    (hnot : gid ∉ lunchDecidedIds db w) :
    lunchWeeklyPicks (dropPicksOn db gid) w = lunchWeeklyPicks db w := by
  show (if (lunchDecidedIds db w).isEmpty then []
        else (db.picks.filter (fun p => p.gameId != gid)).filter
          (fun p => (lunchDecidedIds db w).contains p.gameId))
      = (if (lunchDecidedIds db w).isEmpty then []
        else db.picks.filter (fun p => (lunchDecidedIds db w).contains p.gameId))
  by_cases he : (lunchDecidedIds db w).isEmpty
  · simp [he]
  · simp only [he, if_neg Bool.false_ne_true]
    apply filter_filter_subsume
    intro p hp
    have hmem : p.gameId ∈ lunchDecidedIds db w := by simpa using hp
    have hne : p.gameId ≠ gid := fun e => hnot (e ▸ hmem)
    simpa using hne
theorem seasonLeaderboard_drop (db : DB) (week? : Option WeekRow) (gid : Nat)
    (hnot : ∀ season, activeSeason db week? = some season →
      gid ∉ boardDecidedIds db season) :
    seasonLeaderboard (dropPicksOn db gid) week? = seasonLeaderboard db week? := by
  have hact : activeSeason (dropPicksOn db gid) week? = activeSeason db week? := rfl
  cases hsea : activeSeason db week? with
  | none => simp only [seasonLeaderboard, hact, hsea]
  | some season =>
    have hbp : boardPicks (dropPicksOn db gid) season = boardPicks db season :=
      boardPicks_drop db season gid (hnot season hsea)
    have hpc : boardPickCounts (dropPicksOn db gid) season = boardPickCounts db season := by
      unfold boardPickCounts
      rw [hbp]
      rfl
    have hcc : boardCorrectCounts (dropPicksOn db gid) season
        = boardCorrectCounts db season := by
      unfold boardCorrectCounts
      rw [hbp]
      rfl
    have hids : boardDecidedIds (dropPicksOn db gid) season = boardDecidedIds db season := rfl
    have hbe : boardEntries (dropPicksOn db gid) season = boardEntries db season := by
      unfold boardEntries
      rw [hpc, hcc]
      rfl
    simp only [seasonLeaderboard, hact, hsea, hids, hpc, hbe]

theorem weeklyLunch_drop (db : DB) (week? : Option WeekRow) (gid : Nat)
    (hnot : ∀ w, week? = some w → gid ∉ lunchDecidedIds db w) :
    weeklyLunch (dropPicksOn db gid) week? = weeklyLunch db week? := by
  cases week? with
  | none => rfl
  | some w =>
    have hwp : lunchWeeklyPicks (dropPicksOn db gid) w = lunchWeeklyPicks db w :=
      lunchWeeklyPicks_drop db w gid (hnot w rfl)
    have hpc : lunchPickCounts (dropPicksOn db gid) w = lunchPickCounts db w := by
      unfold lunchPickCounts
      rw [hwp]
      rfl
    have hcc : lunchCorrectCounts (dropPicksOn db gid) w = lunchCorrectCounts db w := by
      unfold lunchCorrectCounts
      rw [hwp]
      rfl
    have huid : lunchUserIds (dropPicksOn db gid) w = lunchUserIds db w := by
      unfold lunchUserIds
      rw [hpc]
    have htb : lunchTbByUser (dropPicksOn db gid) w = lunchTbByUser db w := by
      unfold lunchTbByUser
      rw [huid]
      rfl
    have hrows : lunchRows (dropPicksOn db gid) w = lunchRows db w := by
      unfold lunchRows
      rw [huid, hcc, hpc, htb]
      rfl
    have hmax : lunchMaxCorrect (dropPicksOn db gid) w = lunchMaxCorrect db w := by
      unfold lunchMaxCorrect
      rw [hrows]
    have hmin : lunchMinCorrect (dropPicksOn db gid) w = lunchMinCorrect db w := by
      unfold lunchMinCorrect
      rw [hrows]
    have hwin : lunchWinners (dropPicksOn db gid) w = lunchWinners db w := by
      unfold lunchWinners
      rw [hrows, hmax]
    have hlose : lunchLosers (dropPicksOn db gid) w = lunchLosers db w := by
      unfold lunchLosers
      rw [hrows, hmin]
    have hwg : weekGames (dropPicksOn db gid) w = weekGames db w := rfl
    have hfg : lunchFinalGames (dropPicksOn db gid) w = lunchFinalGames db w := rfl
    have hfin : lunchWeekFinalized (dropPicksOn db gid) w = lunchWeekFinalized db w := rfl
    have hat : lunchActualTotal (dropPicksOn db gid) w = lunchActualTotal db w := rfl
    simp only [weeklyLunch, hwg, hpc, hwin, hlose, hfin, hat, hfg]
/-- **C1.** For a Final game, winner resolution matches the higher-scoring
side, and a tied Final game has no winner: removing all picks on a tied
Final game changes neither the season leaderboard (with its decided-game
count) nor the weekly lunch result, so such a game contributes to no user's
pick or correct counts in either computation. -/
theorem c1_final_tie_contributes_nothing (db : DB) (week? : Option WeekRow) (g : Game)
    (hnodup : (db.games.map (fun x => x.id)).Nodup)
    (hmem : g ∈ db.games) (hfin : g.status = GameStatus.final) :
    ((g.homeScore > g.awayScore → gameWinner g = some g.homeTeamId) ∧
      (g.awayScore > g.homeScore → gameWinner g = some g.awayTeamId) ∧
      (g.homeScore = g.awayScore → gameWinner g = none)) ∧
    (g.homeScore = g.awayScore →
      seasonLeaderboard (dropPicksOn db g.id) week? = seasonLeaderboard db week? ∧
      weeklyLunch (dropPicksOn db g.id) week? = weeklyLunch db week?) := by
  refine ⟨⟨?_, ?_, ?_⟩, ?_⟩
  · intro h
    unfold gameWinner
    rw [if_pos h]
  · intro h
    unfold gameWinner
    rw [if_neg (by omega), if_pos h]
  · intro h
    unfold gameWinner
    rw [if_neg (by omega), if_neg (by omega)]
  · intro htie
    have hwnone : gameWinner g = none := by
      unfold gameWinner
      rw [if_neg (by omega), if_neg (by omega)]
    constructor
    · apply seasonLeaderboard_drop
      intro season _
      exact not_mem_decidedIdsOf (boardFinalGames db season) db g hnodup
        (fun x hx => (List.mem_filter.mp hx).1)
        (nodup_ids_filter db.games _ hnodup) hmem hwnone
    · apply weeklyLunch_drop
      intro w _
      refine not_mem_decidedIdsOf (lunchFinalGames db w) db g hnodup ?_ ?_ hmem hwnone
      · intro x hx
        exact (List.mem_filter.mp ((List.mem_filter.mp hx).1)).1
      · exact nodup_ids_filter (weekGames db w) _ (nodup_ids_filter db.games _ hnodup)
/-- Concrete fixture week for the C1 witness. -/
def c1wWeek : WeekRow :=
  { id := 1, seasonId := 1, weekNumber := 1, seasonType := 2, firstKickoffAt := 0 }

/-- A Final game that ended in a tie. -/
def c1wGame : Game :=
  { id := 10, seasonId := 1, weekId := 1, homeTeamId := 100, awayTeamId := 101
    startTime := 0, status := GameStatus.final, homeScore := 21, awayScore := 21
    providerGameId := none }

def c1wDb : DB :=
  { seasons := [{ id := 1, year := 2024, isActive := true }]
    weeks := [c1wWeek]
    games := [c1wGame,
      { id := 11, seasonId := 1, weekId := 1, homeTeamId := 102, awayTeamId := 103
        startTime := 3, status := GameStatus.final, homeScore := 10, awayScore := 7
        providerGameId := none }]
    picks := [{ userId := 1, gameId := 10, chosenTeamId := 100 },
      { userId := 1, gameId := 11, chosenTeamId := 102 }]
    users := [{ id := 1, username := "alice", firstName := "Alice", lastName := "A" }]
    tiebreakers := [] }

theorem c1_witness :
    gameWinner c1wGame = none ∧
    seasonLeaderboard (dropPicksOn c1wDb c1wGame.id) (some c1wWeek)
      = seasonLeaderboard c1wDb (some c1wWeek) ∧
    weeklyLunch (dropPicksOn c1wDb c1wGame.id) (some c1wWeek)
      = weeklyLunch c1wDb (some c1wWeek) := by
  have h := c1_final_tie_contributes_nothing c1wDb (some c1wWeek) c1wGame
    (by decide) (by simp [c1wDb]) rfl
  exact ⟨h.1.2.2 rfl, (h.2 rfl).1, (h.2 rfl).2⟩
/-! ## Counting lemmas -/

theorem lookupA_mem {κ α : Type} [BEq κ] [LawfulBEq κ]
    {l : List (κ × α)} {k : κ} {v : α} (h : lookupA l k = some v) :
    ∃ kv ∈ l, kv.1 = k ∧ kv.2 = v := by
  unfold lookupA at h
  cases hf : l.find? (fun kv => kv.1 == k) with
  | none => rw [hf] at h; simp at h
  | some kv =>
    rw [hf] at h
    have hv : kv.2 = v := by simpa using h
    refine ⟨kv, List.mem_of_find?_eq_some hf, ?_, hv⟩
    have := List.find?_some hf
    simpa using this

theorem lookupA_isSome_of_mem_keys {κ α : Type} [BEq κ] [LawfulBEq κ]
    {l : List (κ × α)} {k : κ} (h : k ∈ l.map Prod.fst) :
    (lookupA l k).isSome := by
  unfold lookupA
  cases hf : l.find? (fun kv => kv.1 == k) with
  | none =>
    rw [List.find?_eq_none] at hf
    obtain ⟨kv, hkv, hfst⟩ := List.mem_map.mp h
    exact absurd (by simpa using hfst) (hf kv hkv)
  | some kv => simp

theorem keys_incr {κ : Type} [BEq κ] [LawfulBEq κ] (l : List (κ × Nat)) (k : κ) :
    (incr l k).map Prod.fst = l.map Prod.fst ∨
      (incr l k).map Prod.fst = l.map Prod.fst ++ [k] := by
  induction l with
  | nil => right; rfl
  | cons kv rest ih =>
    by_cases he : (kv.1 == k) = true
    · left
      have hk : kv.1 = k := by simpa using he
      simp [incr, he, hk]
    · rcases ih with h | h
      · left; simp [incr, he, h]
      · right; simp [incr, he, h]

theorem mem_keys_incr {κ : Type} [BEq κ] [LawfulBEq κ]
    {l : List (κ × Nat)} {k x : κ} (h : x ∈ (incr l k).map Prod.fst) :
    x ∈ l.map Prod.fst ∨ x = k := by
  rcases keys_incr l k with he | he
  · rw [he] at h; exact Or.inl h
  · rw [he] at h
    rcases List.mem_append.mp h with h' | h'
    · exact Or.inl h'
    · exact Or.inr (by simpa using h')

theorem values_incr_pos {κ : Type} [BEq κ]
    (l : List (κ × Nat)) (k : κ) (h : ∀ kv ∈ l, 0 < kv.2) :
    ∀ kv ∈ incr l k, 0 < kv.2 := by
  induction l with
  | nil =>
    intro kv hkv
    simp only [incr, List.mem_singleton] at hkv
    simp [hkv]
  | cons kv₀ rest ih =>
    intro kv hkv
    by_cases he : (kv₀.1 == k) = true
    · simp only [incr, he, if_pos] at hkv
      rcases (by simpa using hkv : kv = (kv₀.1, kv₀.2 + 1) ∨ kv ∈ rest) with h' | h'
      · simp [h']
      · exact h kv (List.mem_cons_of_mem _ h')
    · simp only [incr, he] at hkv
      rcases (by simpa using hkv : kv = kv₀ ∨ kv ∈ incr rest k) with h' | h'
      · exact h' ▸ h kv₀ (List.mem_cons_self _ _)
      · exact ih (fun kv' h' => h kv' (List.mem_cons_of_mem _ h')) kv h'

theorem incr_ne_nil {κ : Type} [BEq κ] (l : List (κ × Nat)) (k : κ) :
    incr l k ≠ [] := by
  cases l with
  | nil => simp [incr]
  | cons kv rest =>
    unfold incr
    by_cases he : (kv.1 == k) = true <;> simp [he]

theorem tallyFold_keys (wbg : List (Nat × Option Nat)) (ps : List PickRow)
    (acc : List (Nat × Nat) × List (Nat × Nat)) (x : Nat)
    (h : x ∈ (ps.foldl (tallyStep wbg) acc).1.map Prod.fst) :
    x ∈ acc.1.map Prod.fst ∨ ∃ p ∈ ps, p.userId = x := by
  induction ps generalizing acc with
  | nil => exact Or.inl (by simpa using h)
  | cons p rest ih =>
    simp only [List.foldl_cons] at h
    rcases ih (tallyStep wbg acc p) h with h' | h'
    · unfold tallyStep at h'
      cases hw : decidedWinnerOf wbg p.gameId with
      | none => rw [hw] at h'; exact Or.inl h'
      | some t =>
        rw [hw] at h'
        rcases mem_keys_incr h' with h'' | h''
        · exact Or.inl h''
        · exact Or.inr ⟨p, List.mem_cons_self _ _, h''.symm⟩
    · obtain ⟨p', hp', hx⟩ := h'
      exact Or.inr ⟨p', List.mem_cons_of_mem _ hp', hx⟩

theorem tallyFold_values_pos (wbg : List (Nat × Option Nat)) (ps : List PickRow)
    (acc : List (Nat × Nat) × List (Nat × Nat)) (h : ∀ kv ∈ acc.1, 0 < kv.2) :
    ∀ kv ∈ (ps.foldl (tallyStep wbg) acc).1, 0 < kv.2 := by
  induction ps generalizing acc with
  | nil => simpa using h
  | cons p rest ih =>
    simp only [List.foldl_cons]
    apply ih
    unfold tallyStep
    cases hw : decidedWinnerOf wbg p.gameId with
    | none => exact h
    | some t => exact values_incr_pos acc.1 p.userId h

theorem tallyFold_fst_eq_nil (wbg : List (Nat × Option Nat)) (ps : List PickRow)
    (acc : List (Nat × Nat) × List (Nat × Nat)) :
    (ps.foldl (tallyStep wbg) acc).1 = [] ↔
      acc.1 = [] ∧ ∀ p ∈ ps, decidedWinnerOf wbg p.gameId = none := by
  induction ps generalizing acc with
  | nil => simp
  | cons p rest ih =>
    simp only [List.foldl_cons]
    rw [ih]
    unfold tallyStep
    cases hw : decidedWinnerOf wbg p.gameId with
    | none => simp [hw]
    | some t =>
      simp only [List.mem_cons]
      constructor
      · rintro ⟨habs, -⟩
        exact absurd habs (incr_ne_nil acc.1 p.userId)
      · rintro ⟨-, hall⟩
        exact absurd (hall p (Or.inl rfl)) (by simp [hw])
/-! ## The leaderboard sort order is total and transitive -/

theorem entryLE_total (a b : BoardEntry) : entryLE a b ∨ entryLE b a := by
  unfold entryLE
  rcases Nat.lt_trichotomy a.correct b.correct with h | h | h
  · exact Or.inr (Or.inl h)
  · rcases lt_trichotomy a.pct b.pct with hp | hp | hp
    · exact Or.inr (Or.inr ⟨h.symm, Or.inl hp⟩)
    · rcases le_total (strLower a.name) (strLower b.name) with hs | hs
      · exact Or.inl (Or.inr ⟨h, Or.inr ⟨hp, hs⟩⟩)
      · exact Or.inr (Or.inr ⟨h.symm, Or.inr ⟨hp.symm, hs⟩⟩)
    · exact Or.inl (Or.inr ⟨h, Or.inl hp⟩)
  · exact Or.inl (Or.inl h)

theorem entryLE_transitive (a b c : BoardEntry)
    (hab : entryLE a b) (hbc : entryLE b c) : entryLE a c := by
  unfold entryLE at *
  rcases hab with h1 | ⟨e1, h1⟩
  · rcases hbc with h2 | ⟨e2, h2⟩
    · exact Or.inl (h2.trans h1)
    · exact Or.inl (e2 ▸ h1)
  · rcases hbc with h2 | ⟨e2, h2⟩
    · exact Or.inl (e1 ▸ h2)
    · refine Or.inr ⟨e1.trans e2, ?_⟩
      rcases h1 with p1 | ⟨q1, s1⟩
      · rcases h2 with p2 | ⟨q2, s2⟩
        · exact Or.inl (p2.trans p1)
        · exact Or.inl (q2 ▸ p1)
      · rcases h2 with p2 | ⟨q2, s2⟩
        · exact Or.inl (q1 ▸ p2)
        · exact Or.inr ⟨q1.trans q2, s1.trans s2⟩

instance : IsTotal BoardEntry entryLE := ⟨entryLE_total⟩

instance : IsTrans BoardEntry entryLE := ⟨fun a b c => entryLE_transitive a b c⟩

/-- The three shapes `_season_leaderboard` can return. -/
theorem seasonLeaderboard_cases (db : DB) (week? : Option WeekRow) :
    seasonLeaderboard db week? = ([], 0) ∨
      ∃ season, activeSeason db week? = some season ∧
        (seasonLeaderboard db week? = ([], (boardDecidedIds db season).length) ∨
          seasonLeaderboard db week?
            = ((List.insertionSort entryLE (boardEntries db season)).take 10,
               (boardDecidedIds db season).length)) := by
  cases hsea : activeSeason db week? with
  | none => left; simp [seasonLeaderboard, hsea]
  | some season =>
    by_cases hd : (boardDecidedIds db season).isEmpty
    · left; simp [seasonLeaderboard, hsea, hd]
    · by_cases hp : (boardPickCounts db season).isEmpty
      · right
        exact ⟨season, rfl, Or.inl (by simp [seasonLeaderboard, hsea, hd, hp])⟩
      · right
        exact ⟨season, rfl, Or.inr (by simp [seasonLeaderboard, hsea, hd, hp])⟩
theorem length_filter_map_snd_isSome (l : List Game) :
    ((l.map (fun g => (g.id, gameWinner g))).filter (fun kv => kv.2.isSome)).length
      = (l.filter (fun g => (gameWinner g).isSome)).length := by
  induction l with
  | nil => rfl
  | cons g rest ih =>
    by_cases hg : (gameWinner g).isSome <;>
      simp [List.filter_cons, hg, ih]

theorem length_decidedIdsOf (finals : List Game)
    (h : (finals.map (fun x => x.id)).Nodup) :
    (decidedIdsOf finals).length
      = (finals.filter (fun g => (gameWinner g).isSome)).length := by
  unfold decidedIdsOf
  rw [winnersByGame_eq_map finals h, List.length_map,
    length_filter_map_snd_isSome]

theorem mem_boardEntries (db : DB) (season : SeasonRow) {e : BoardEntry}
    (h : e ∈ boardEntries db season) :
    e.userId ∈ (boardPickCounts db season).map Prod.fst ∧ 0 < e.picks := by
  unfold boardEntries at h
  obtain ⟨uid, huid, he⟩ := List.mem_map.mp h
  have hid : e.userId = uid := by rw [← he]
  have hpicks : e.picks = (lookupA (boardPickCounts db season) uid).getD 0 := by
    rw [← he]
  refine ⟨hid ▸ huid, ?_⟩
  have hsome := lookupA_isSome_of_mem_keys huid
  obtain ⟨v, hv⟩ := Option.isSome_iff_exists.mp hsome
  obtain ⟨kv, hkv, -, hval⟩ := lookupA_mem hv
  have hpos : 0 < kv.2 := by
    apply tallyFold_values_pos _ _ ([], []) (by simp) kv
    simpa [boardPickCounts, tallyCounts] using hkv
  rw [hpicks, hv]
  simpa [hval] using hpos

/-- **C5.** The season leaderboard is sorted by (more correct first, then
higher accuracy, then case-insensitive name ascending), is capped at 10
entries, reports the number of decided games, and excludes every user
without a qualifying pick on a decided game. -/
theorem c5_leaderboard_order (db : DB) (week? : Option WeekRow)
    (hnodup : (db.games.map (fun x => x.id)).Nodup) :
    ((seasonLeaderboard db week?).1.Pairwise fun a b =>
        b.correct < a.correct ∨
          (a.correct = b.correct ∧
            (b.pct < a.pct ∨ (a.pct = b.pct ∧ strLower a.name ≤ strLower b.name)))) ∧
    (seasonLeaderboard db week?).1.length ≤ 10 ∧
    (∀ e ∈ (seasonLeaderboard db week?).1, 0 < e.picks) ∧
    (∀ season, activeSeason db week? = some season →
      (seasonLeaderboard db week?).2
        = ((boardFinalGames db season).filter (fun g => (gameWinner g).isSome)).length) ∧
    (∀ season, activeSeason db week? = some season →
      ∀ uid, (∀ p ∈ db.picks, p.userId = uid → p.gameId ∉ boardDecidedIds db season) →
        uid ∉ (seasonLeaderboard db week?).1.map (fun e => e.userId)) := by
  have hnf : ∀ season, ((boardFinalGames db season).map (fun x => x.id)).Nodup :=
    fun season => nodup_ids_filter db.games _ hnodup
  refine ⟨?_, ?_, ?_, ?_, ?_⟩
  · rcases seasonLeaderboard_cases db week? with h | ⟨season, hsea, h | h⟩
    · rw [h]; exact List.Pairwise.nil
    · rw [h]; exact List.Pairwise.nil
    · rw [h]
      exact List.Pairwise.sublist (List.take_sublist 10 _)
        (List.sorted_insertionSort entryLE (boardEntries db season))
  · rcases seasonLeaderboard_cases db week? with h | ⟨season, hsea, h | h⟩
    · simp [h]
    · simp [h]
    · rw [h]
      exact le_trans (List.length_take_le 10 _) (le_refl 10)
  · intro e he
    rcases seasonLeaderboard_cases db week? with h | ⟨season, hsea, h | h⟩
    · rw [h] at he; simp at he
    · rw [h] at he; simp at he
    · rw [h] at he
      have hmem : e ∈ List.insertionSort entryLE (boardEntries db season) :=
        (List.take_sublist 10 _).subset he
      have hbe : e ∈ boardEntries db season :=
        (List.perm_insertionSort entryLE (boardEntries db season)).mem_iff.mp hmem
      exact (mem_boardEntries db season hbe).2
  · intro season hsea
    have hlen : (boardDecidedIds db season).length
        = ((boardFinalGames db season).filter (fun g => (gameWinner g).isSome)).length :=
      length_decidedIdsOf _ (hnf season)
    by_cases hd : (boardDecidedIds db season).isEmpty
    · have hnil : boardDecidedIds db season = [] := List.isEmpty_iff.mp hd
      simp [seasonLeaderboard, hsea, hd, ← hlen, hnil]
    · by_cases hp : (boardPickCounts db season).isEmpty <;>
        simp [seasonLeaderboard, hsea, hd, hp, hlen]
  · intro season hsea uid hnone hmem
    rcases seasonLeaderboard_cases db week? with h | ⟨season', hsea', h | h⟩
    · rw [h] at hmem; simp at hmem
    · rw [h] at hmem; simp at hmem
    · have hseq : season' = season := by
        rw [hsea] at hsea'
        exact (Option.some.injEq .. ▸ hsea').symm
      rw [hseq] at h
      rw [h] at hmem
      obtain ⟨e, he, heid⟩ := List.mem_map.mp hmem
      have hbe : e ∈ boardEntries db season :=
        (List.perm_insertionSort entryLE (boardEntries db season)).mem_iff.mp
          ((List.take_sublist 10 _).subset he)
      have hkey := (mem_boardEntries db season hbe).1
      rw [heid] at hkey
      rcases tallyFold_keys _ _ ([], []) uid
          (by simpa [boardPickCounts, tallyCounts] using hkey) with h' | h'
      · simp at h'
      · obtain ⟨p, hp, hpuid⟩ := h'
        have hpdb : p ∈ db.picks := (List.mem_filter.mp hp).1
        have hpdec : p.gameId ∈ boardDecidedIds db season := by
          have := (List.mem_filter.mp hp).2
          simpa using this
        exact hnone p hpdb hpuid hpdec
/-- Concrete fixture for the C5 witness: two decided games, three users with
tying records. -/
def c5wWeek : WeekRow :=
  { id := 1, seasonId := 1, weekNumber := 1, seasonType := 2, firstKickoffAt := 0 }

def c5wDb : DB :=
  { seasons := [{ id := 1, year := 2024, isActive := true }]
    weeks := [c5wWeek]
    games := [
      { id := 10, seasonId := 1, weekId := 1, homeTeamId := 100, awayTeamId := 101
        startTime := 0, status := GameStatus.final, homeScore := 24, awayScore := 17
        providerGameId := none },
      { id := 11, seasonId := 1, weekId := 1, homeTeamId := 102, awayTeamId := 103
        startTime := 3, status := GameStatus.final, homeScore := 10, awayScore := 13
        providerGameId := none }]
    picks := [{ userId := 1, gameId := 10, chosenTeamId := 100 },
      { userId := 1, gameId := 11, chosenTeamId := 103 },
      { userId := 2, gameId := 10, chosenTeamId := 100 },
      { userId := 2, gameId := 11, chosenTeamId := 102 },
      { userId := 3, gameId := 10, chosenTeamId := 101 }]
    users := [{ id := 1, username := "carol", firstName := "Carol", lastName := "C" },
      { id := 2, username := "bob", firstName := "Bob", lastName := "B" },
      { id := 3, username := "dave", firstName := "Dave", lastName := "D" }]
    tiebreakers := [] }

theorem c5_witness :
    (c5wDb.games.map (fun x => x.id)).Nodup ∧
    (seasonLeaderboard c5wDb (some c5wWeek)).1.length ≤ 10 ∧
    (∀ e ∈ (seasonLeaderboard c5wDb (some c5wWeek)).1, 0 < e.picks) := by
  have h := c5_leaderboard_order c5wDb (some c5wWeek) (by decide)
  exact ⟨by decide, h.2.1, h.2.2.1⟩
/-! ## Weekly lunch status lemmas -/

theorem keys_setA {κ α : Type} [BEq κ] [LawfulBEq κ] (l : List (κ × α)) (k : κ) (v : α) :
    (setA l k v).map Prod.fst = l.map Prod.fst ∨
      ((setA l k v).map Prod.fst = l.map Prod.fst ++ [k] ∧ k ∉ l.map Prod.fst) := by
  induction l with
  | nil => right; simp [setA]
  | cons kv rest ih =>
    by_cases he : (kv.1 == k) = true
    · left
      have hk : kv.1 = k := by simpa using he
      simp [setA, he, hk]
    · have hk : kv.1 ≠ k := by simpa using he
      rcases ih with h | ⟨h, hnot⟩
      · left; simp [setA, he, h]
      · right
        constructor
        · simp [setA, he, h]
        · simp only [List.map_cons, List.mem_cons]
          rintro (h' | h')
          · exact hk h'.symm
          · exact hnot h'

theorem keys_setA_nodup {κ α : Type} [BEq κ] [LawfulBEq κ]
    (l : List (κ × α)) (k : κ) (v : α) (h : (l.map Prod.fst).Nodup) :
    ((setA l k v).map Prod.fst).Nodup := by
  rcases keys_setA l k v with he | ⟨he, hnot⟩
  · rw [he]; exact h
  · rw [he, List.nodup_append]
    refine ⟨h, List.nodup_singleton _, ?_⟩
    intro x hx hx'
    simp only [List.mem_singleton] at hx'
    exact hnot (hx' ▸ hx)

theorem winnersByGame_keys_nodup (finals : List Game) :
    ((winnersByGame finals).map Prod.fst).Nodup := by
  unfold winnersByGame
  suffices h : ∀ (acc : List (Nat × Option Nat)), (acc.map Prod.fst).Nodup →
      ((finals.foldl (fun m g => setA m g.id (gameWinner g)) acc).map Prod.fst).Nodup by
    exact h [] (by simp)
  induction finals with
  | nil => intro acc hacc; simpa using hacc
  | cons g rest ih =>
    intro acc hacc
    simp only [List.foldl_cons]
    exact ih _ (keys_setA_nodup acc g.id (gameWinner g) hacc)

theorem lookupA_of_nodup_mem {κ α : Type} [BEq κ] [LawfulBEq κ]
    {l : List (κ × α)} {k : κ} {v : α}
    (hnodup : (l.map Prod.fst).Nodup) (hmem : (k, v) ∈ l) :
    lookupA l k = some v := by
  induction l with
  | nil => simp at hmem
  | cons kv rest ih =>
    simp only [List.map_cons, List.nodup_cons] at hnodup
    rcases List.mem_cons.mp hmem with h | h
    · rw [← h]
      simp [lookupA, List.find?]
    · have hne : kv.1 ≠ k := by
        intro he
        exact hnodup.1 (he ▸ List.mem_map.mpr ⟨(k, v), h, rfl⟩)
      have : lookupA rest k = some v := ih hnodup.2 h
      simpa [lookupA, List.find?, (by simpa using hne : (kv.1 == k) = false)]
        using this

theorem decidedWinnerOf_of_mem_decidedIds (finals : List Game) (gid : Nat)
    (h : gid ∈ decidedIdsOf finals) :
    ∃ t, decidedWinnerOf (winnersByGame finals) gid = some t := by
  unfold decidedIdsOf at h
  obtain ⟨kv, hkv, hfst⟩ := List.mem_map.mp h
  obtain ⟨a, b⟩ := kv
  have hfst' : a = gid := hfst
  subst hfst'
  have hmemf := List.mem_filter.mp hkv
  obtain ⟨t, ht⟩ : ∃ t, b = some t := by
    have hb : b.isSome := by simpa using hmemf.2
    exact Option.isSome_iff_exists.mp hb
  subst ht
  refine ⟨t, ?_⟩
  have hlk : lookupA (winnersByGame finals) a = some (some t) :=
    lookupA_of_nodup_mem (winnersByGame_keys_nodup finals) hmemf.1
  simp [decidedWinnerOf, hlk]

theorem pyMaxNat_mem (l : List Nat) (h : l ≠ []) : pyMaxNat l ∈ l := by
  cases l with
  | nil => exact absurd rfl h
  | cons x xs =>
    clear h
    show xs.foldl Nat.max x ∈ x :: xs
    suffices hgen : ∀ (xs : List Nat) (x : Nat),
        xs.foldl Nat.max x = x ∨ xs.foldl Nat.max x ∈ xs by
      rcases hgen xs x with h' | h'
      · rw [h']; exact List.mem_cons_self _ _
      · exact List.mem_cons_of_mem _ h'
    intro xs
    induction xs with
    | nil => intro x; left; rfl
    | cons y ys ih =>
      intro x
      simp only [List.foldl_cons]
      rcases ih (Nat.max x y) with h' | h'
      · rcases Nat.le_total x y with hxy | hxy
        · right
          have hm : x.max y = y := Nat.max_eq_right hxy
          rw [h', hm]
          exact List.mem_cons_self _ _
        · left
          have hm : x.max y = x := Nat.max_eq_left hxy
          rw [h', hm]
      · right; exact List.mem_cons_of_mem _ h'
theorem lunchWeeklyPicks_ne_nil_iff (db : DB) (w : WeekRow) :
    lunchWeeklyPicks db w ≠ [] ↔ ∃ p ∈ db.picks, p.gameId ∈ lunchDecidedIds db w := by
  unfold lunchWeeklyPicks
  by_cases hd : (lunchDecidedIds db w).isEmpty
  · rw [if_pos hd]
    constructor
    · intro h; exact absurd rfl h
    · rintro ⟨p, hp, hmem⟩
      rw [List.isEmpty_iff] at hd
      rw [hd] at hmem
      simp at hmem
  · rw [if_neg hd]
    constructor
    · intro h
      obtain ⟨p, hp⟩ := List.exists_mem_of_ne_nil _ h
      have hm := List.mem_filter.mp hp
      exact ⟨p, hm.1, by simpa using hm.2⟩
    · rintro ⟨p, hp, hmem⟩
      intro hnil
      have hin : p ∈ db.picks.filter
          (fun p => (lunchDecidedIds db w).contains p.gameId) :=
        List.mem_filter.mpr ⟨hp, by simpa using hmem⟩
      rw [hnil] at hin
      simp at hin

theorem lunchPickCounts_ne_nil_iff (db : DB) (w : WeekRow) :
    lunchPickCounts db w ≠ [] ↔ lunchWeeklyPicks db w ≠ [] := by
  constructor
  · intro h hwp
    apply h
    show (tallyCounts _ _).1 = []
    unfold tallyCounts
    rw [tallyFold_fst_eq_nil]
    exact ⟨rfl, by rw [hwp]; simp⟩
  · intro h hpc
    have hpc' : ((lunchWeeklyPicks db w).foldl
        (tallyStep (winnersByGame (lunchFinalGames db w))) ([], [])).1 = [] := hpc
    rw [tallyFold_fst_eq_nil] at hpc'
    obtain ⟨p, hp⟩ := List.exists_mem_of_ne_nil _ h
    have hmem : p.gameId ∈ lunchDecidedIds db w := by
      unfold lunchWeeklyPicks at hp
      by_cases hd : (lunchDecidedIds db w).isEmpty
      · rw [if_pos hd] at hp; simp at hp
      · rw [if_neg hd] at hp
        simpa using (List.mem_filter.mp hp).2
    obtain ⟨t, ht⟩ := decidedWinnerOf_of_mem_decidedIds (lunchFinalGames db w) p.gameId hmem
    rw [hpc'.2 p hp] at ht
    simp at ht

theorem lunchRows_eq_nil_iff (db : DB) (w : WeekRow) :
    lunchRows db w = [] ↔ lunchPickCounts db w = [] := by
  unfold lunchRows lunchUserIds
  simp [List.map_eq_nil_iff]

theorem lunchWinners_ne_nil (db : DB) (w : WeekRow) (h : lunchRows db w ≠ []) :
    lunchWinners db w ≠ [] := by
  unfold lunchWinners
  have hmax : lunchMaxCorrect db w ∈ (lunchRows db w).map (fun r => r.correct) := by
    unfold lunchMaxCorrect
    apply pyMaxNat_mem
    intro hm
    exact h (List.map_eq_nil_iff.mp hm)
  obtain ⟨r, hr, hrc⟩ := List.mem_map.mp hmax
  intro hnil
  have hin : r ∈ (lunchRows db w).filter (fun r => r.correct == lunchMaxCorrect db w) :=
    List.mem_filter.mpr ⟨hr, by simp [hrc]⟩
  rw [hnil] at hin
  simp at hin

theorem applyWinnerTiebreak_fst_ne_nil (ws : List LunchRow) (f : Bool)
    (t : Option Int) (h : ws ≠ []) : (applyWinnerTiebreak ws f t).1 ≠ [] := by
  unfold applyWinnerTiebreak
  cases t with
  | none => exact h
  | some total =>
    dsimp only
    split
    · split
      · simp
      · exact h
    · exact h

theorem lunchWeekFinalized_false_of_nonfinal (db : DB) (w : WeekRow) (g : Game)
    (hg : g ∈ weekGames db w) (hnf : g.status ≠ GameStatus.final) :
    lunchWeekFinalized db w = false := by
  have hlt : (lunchFinalGames db w).length < (weekGames db w).length := by
    apply Nat.lt_of_le_of_ne (List.length_filter_le _ _)
    intro heq
    have hself : lunchFinalGames db w = weekGames db w :=
      List.Sublist.eq_of_length (List.filter_sublist _) heq
    have hgin : g ∈ lunchFinalGames db w := hself ▸ hg
    have := (List.mem_filter.mp hgin).2
    exact hnf (by simpa using this)
  unfold lunchWeekFinalized
  rw [beq_eq_false_iff_ne]
  exact Nat.ne_of_lt hlt

theorem lunchWeekFinalized_of_all_final (db : DB) (w : WeekRow)
    (h : ∀ g ∈ weekGames db w, g.status = GameStatus.final) :
    lunchWeekFinalized db w = true := by
  unfold lunchWeekFinalized lunchFinalGames
  have heq : (weekGames db w).filter (fun g => g.status == GameStatus.final)
      = weekGames db w :=
    List.filter_eq_self.mpr (fun g hg => by simp [h g hg])
  simp [heq]

theorem all_final_of_lunchWeekFinalized (db : DB) (w : WeekRow)
    (h : lunchWeekFinalized db w = true) :
    ∀ g ∈ weekGames db w, g.status = GameStatus.final := by
  have hnateq : (lunchFinalGames db w).length = (weekGames db w).length := by
    simpa [lunchWeekFinalized] using h
  have hself : lunchFinalGames db w = weekGames db w :=
    List.Sublist.eq_of_length (List.filter_sublist _) hnateq
  intro g hg
  have hgin : g ∈ lunchFinalGames db w := hself ▸ hg
  simpa using (List.mem_filter.mp hgin).2
/-- **C4.** Weekly lunch status: `no_week` without a week, `no_games` for an
empty week, `pending` whenever any game is not Final (regardless of current
counts), and `decided` exactly when every game is Final (ties included) and
at least one pick on a decided game exists. -/
theorem c4_lunch_status (db : DB) (week? : Option WeekRow) :
    (week? = none → (weeklyLunch db week?).status = "no_week") ∧
    (∀ w, week? = some w → weekGames db w = [] →
      (weeklyLunch db week?).status = "no_games") ∧
    (∀ w, week? = some w → (∃ g ∈ weekGames db w, g.status ≠ GameStatus.final) →
      (weeklyLunch db week?).status = "pending") ∧
    (∀ w, week? = some w → weekGames db w ≠ [] →
      ((weeklyLunch db week?).status = "decided" ↔
        (∀ g ∈ weekGames db w, g.status = GameStatus.final) ∧
          ∃ p ∈ db.picks, p.gameId ∈ lunchDecidedIds db w)) := by
  refine ⟨?_, ?_, ?_, ?_⟩
  · intro h; subst h; rfl
  · intro w hw hempty
    subst hw
    simp [weeklyLunch, hempty]
  · intro w hw hex
    subst hw
    obtain ⟨g, hg, hnf⟩ := hex
    have hfin := lunchWeekFinalized_false_of_nonfinal db w g hg hnf
    have hlen : ¬ (weekGames db w).length = 0 := by
      intro h0
      rw [List.length_eq_zero] at h0
      rw [h0] at hg
      simp at hg
    simp only [weeklyLunch]
    rw [if_neg hlen]
    by_cases hpc : (lunchPickCounts db w).isEmpty
    · rw [if_pos hpc]
    · rw [if_neg hpc]
      simp [hfin]
  · intro w hw hne
    subst hw
    have hlen : ¬ (weekGames db w).length = 0 := by
      intro h0
      exact hne (List.length_eq_zero.mp h0)
    constructor
    · intro hdec
      simp only [weeklyLunch] at hdec
      rw [if_neg hlen] at hdec
      by_cases hpc : (lunchPickCounts db w).isEmpty
      · rw [if_pos hpc] at hdec
        simp at hdec
      · rw [if_neg hpc] at hdec
        by_cases hf : lunchWeekFinalized db w = true
        · refine ⟨all_final_of_lunchWeekFinalized db w hf, ?_⟩
          apply (lunchWeeklyPicks_ne_nil_iff db w).mp
          apply (lunchPickCounts_ne_nil_iff db w).mp
          intro hnil
          exact hpc (by simp [hnil])
        · rw [Bool.not_eq_true] at hf
          simp [hf] at hdec
    · rintro ⟨hall, hqual⟩
      have hfin := lunchWeekFinalized_of_all_final db w hall
      have hwp : lunchWeeklyPicks db w ≠ [] :=
        (lunchWeeklyPicks_ne_nil_iff db w).mpr hqual
      have hpcne : lunchPickCounts db w ≠ [] :=
        (lunchPickCounts_ne_nil_iff db w).mpr hwp
      have hrows : lunchRows db w ≠ [] :=
        fun hr => hpcne ((lunchRows_eq_nil_iff db w).mp hr)
      have hwin := lunchWinners_ne_nil db w hrows
      have hwnn := applyWinnerTiebreak_fst_ne_nil (lunchWinners db w)
        (lunchWeekFinalized db w) (lunchActualTotal db w) hwin
      have hpc : ¬ (lunchPickCounts db w).isEmpty = true := by
        intro h
        exact hpcne (List.isEmpty_iff.mp h)
      rw [hfin] at hwnn
      simp only [weeklyLunch]
      rw [if_neg hlen, if_neg hpc]
      simp [hfin, List.length_pos, hwnn]
theorem c4_witness :
    weekGames c1wDb c1wWeek ≠ [] ∧
    (weeklyLunch c1wDb (some c1wWeek)).status = "decided" ∧
    (weeklyLunch c1wDb none).status = "no_week" := by
  have h4 := (c4_lunch_status c1wDb (some c1wWeek)).2.2.2 c1wWeek rfl (by decide)
  have h1 := (c4_lunch_status c1wDb none).1 rfl
  refine ⟨by decide, ?_, h1⟩
  exact h4.mpr ⟨by decide,
    ⟨{ userId := 1, gameId := 11, chosenTeamId := 102 }, by decide, by decide⟩⟩
/-! ## Python `max(key=...)` selection lemmas -/

theorem pyMaxFold_stay {α : Type} (ltb : α → α → Bool) (l : List α) (x : α)
    (hxx : ltb x x = false)
    (hall : ∀ y ∈ l, y = x ∨ (ltb y x = true ∧ ltb x y = false)) :
    l.foldl (fun acc y => if ltb acc y then y else acc) x = x := by
  induction l with
  | nil => rfl
  | cons y ys ih =>
    have hstep : (if ltb x y then y else x) = x := by
      rcases hall y (List.mem_cons_self _ _) with h | h
      · rw [h, hxx]; simp
      · rw [h.2]; simp
    simp only [List.foldl_cons, hstep]
    exact ih (fun z hz => hall z (List.mem_cons_of_mem _ hz))

theorem pyMaxFold_reach {α : Type} (ltb : α → α → Bool) (l : List α) (x : α)
    (hxx : ltb x x = false) :
    ∀ acc, ltb acc x = true → ltb x acc = false → x ∈ l →
      (∀ y ∈ l, y = x ∨ (ltb y x = true ∧ ltb x y = false)) →
      l.foldl (fun acc y => if ltb acc y then y else acc) acc = x := by
  induction l with
  | nil =>
    intro acc _ _ hx _
    simp at hx
  | cons y ys ih =>
    intro acc hax hxa hxmem hall
    rcases hall y (List.mem_cons_self _ _) with hy | hy
    · subst hy
      simp only [List.foldl_cons, hax, if_pos]
      exact pyMaxFold_stay ltb ys y hxx
        (fun z hz => hall z (List.mem_cons_of_mem _ hz))
    · have hxys : x ∈ ys := by
        rcases List.mem_cons.mp hxmem with h | h
        · rw [← h] at hy
          rw [hxx] at hy
          exact absurd hy.1 (by simp)
        · exact h
      simp only [List.foldl_cons]
      by_cases hb : ltb acc y = true
      · rw [if_pos hb]
        exact ih y hy.1 hy.2 hxys (fun z hz => hall z (List.mem_cons_of_mem _ hz))
      · rw [if_neg hb]
        exact ih acc hax hxa hxys (fun z hz => hall z (List.mem_cons_of_mem _ hz))

/-- Python `max(l, key=...)` returns `x` when `x` strictly dominates every
other element of `l`. -/
theorem pyMaxBy_eq_of_strictMax {α : Type} (ltb : α → α → Bool) (l : List α)
    (x : α) (hx : x ∈ l) (hxx : ltb x x = false)
    (hall : ∀ y ∈ l, y ≠ x → ltb y x = true ∧ ltb x y = false) :
    pyMaxBy ltb l = some x := by
  have hall' : ∀ y ∈ l, y = x ∨ (ltb y x = true ∧ ltb x y = false) := by
    intro y hy
    by_cases h : y = x
    · exact Or.inl h
    · exact Or.inr (hall y hy h)
  cases l with
  | nil => simp at hx
  | cons y ys =>
    show some (ys.foldl (fun acc z => if ltb acc z then z else acc) y) = some x
    refine congrArg some ?_
    rcases hall' y (List.mem_cons_self _ _) with h | h
    · subst h
      exact pyMaxFold_stay ltb ys y hxx
        (fun z hz => hall' z (List.mem_cons_of_mem _ hz))
    · have hxys : x ∈ ys := by
        rcases List.mem_cons.mp hx with h' | h'
        · have hyy : ltb y y = false := h' ▸ hxx
          rw [h'] at h
          rw [hyy] at h
          exact absurd h.1 (by simp)
        · exact h'
      exact pyMaxFold_reach ltb ys x hxx y h.1 h.2 hxys
        (fun z hz => hall' z (List.mem_cons_of_mem _ hz))

/-! ## The main branch of `_weekly_lunch` -/

theorem lunch_main_conditions (db : DB) (w : WeekRow)
    (hrows : lunchRows db w ≠ []) :
    ¬ (weekGames db w).length = 0 ∧ ¬ (lunchPickCounts db w).isEmpty = true := by
  have hpc : lunchPickCounts db w ≠ [] :=
    fun h => hrows ((lunchRows_eq_nil_iff db w).mpr h)
  have hwp : lunchWeeklyPicks db w ≠ [] := (lunchPickCounts_ne_nil_iff db w).mp hpc
  obtain ⟨p, -, hmem⟩ := (lunchWeeklyPicks_ne_nil_iff db w).mp hwp
  have hfg : lunchFinalGames db w ≠ [] := by
    intro hnil
    have : lunchDecidedIds db w = [] := by
      show decidedIdsOf (lunchFinalGames db w) = []
      rw [hnil]
      rfl
    rw [this] at hmem
    simp at hmem
  have hwg : weekGames db w ≠ [] := by
    intro hnil
    apply hfg
    show (weekGames db w).filter _ = []
    rw [hnil]
    rfl
  refine ⟨?_, ?_⟩
  · intro h
    exact hwg (List.length_eq_zero.mp h)
  · intro h
    exact hpc (List.isEmpty_iff.mp h)

theorem weeklyLunch_main (db : DB) (w : WeekRow)
    (hgames : ¬ (weekGames db w).length = 0)
    (hpc : ¬ (lunchPickCounts db w).isEmpty = true) :
    weeklyLunch db (some w) =
      { status :=
          if lunchWeekFinalized db w &&
              0 < ((applyWinnerTiebreak (lunchWinners db w) (lunchWeekFinalized db w)
                (lunchActualTotal db w)).1.map (fun r => r.name)).length
            then "decided" else "pending"
        totalGames := (weekGames db w).length
        decidedGames := (lunchFinalGames db w).length
        winnerNames := (applyWinnerTiebreak (lunchWinners db w) (lunchWeekFinalized db w)
          (lunchActualTotal db w)).1.map (fun r => r.name)
        loserNames := (applyLoserTiebreak (lunchLosers db w) (lunchWeekFinalized db w)
          (lunchActualTotal db w)).1.map (fun r => r.name)
        winnerUids := (applyWinnerTiebreak (lunchWinners db w) (lunchWeekFinalized db w)
          (lunchActualTotal db w)).1.map (fun r => r.userId)
        loserUids := (applyLoserTiebreak (lunchLosers db w) (lunchWeekFinalized db w)
          (lunchActualTotal db w)).1.map (fun r => r.userId)
        actualTotal := lunchActualTotal db w
        tbApplied := (applyWinnerTiebreak (lunchWinners db w) (lunchWeekFinalized db w)
          (lunchActualTotal db w)).2
        loserTbApplied := (applyLoserTiebreak (lunchLosers db w) (lunchWeekFinalized db w)
          (lunchActualTotal db w)).2 } := by
  simp only [weeklyLunch]
  rw [if_neg hgames, if_neg hpc]
theorem lunchWinners_sub_rows (db : DB) (w : WeekRow)
    (h : lunchWinners db w ≠ []) : lunchRows db w ≠ [] := by
  intro hr
  apply h
  show (lunchRows db w).filter _ = []
  rw [hr]
  rfl

/-- **C2.** Winner tiebreak with more than one tied user, a finalized week
and an available actual total: the winner set shrinks to exactly the tied
user holding the strictly highest guess not exceeding the total; if no tied
user holds a guess at or under the total (all over, or missing), the winner
set stays the full tied group. -/
theorem c2_winner_tiebreak (db : DB) (w : WeekRow) (T : Int)
    (hfin : lunchWeekFinalized db w = true)
    (hT : lunchActualTotal db w = some T)
    (hmulti : 1 < (lunchWinners db w).length) :
    (∀ u ∈ lunchWinners db w, ∀ gu, u.tb = some gu → gu ≤ T →
      (∀ v ∈ lunchWinners db w, v ≠ u → ∀ gv, v.tb = some gv → gv ≤ T → gv < gu) →
      (weeklyLunch db (some w)).winnerUids = [u.userId] ∧
        (weeklyLunch db (some w)).tbApplied = true) ∧
    ((∀ v ∈ lunchWinners db w, ∀ gv, v.tb = some gv → T < gv) →
      (weeklyLunch db (some w)).winnerUids
          = (lunchWinners db w).map (fun r => r.userId) ∧
        (weeklyLunch db (some w)).tbApplied = false) := by
  have hwne : lunchWinners db w ≠ [] := by
    intro h
    rw [h] at hmulti
    simp at hmulti
  have hconds := lunch_main_conditions db w (lunchWinners_sub_rows db w hwne)
  have hmain := weeklyLunch_main db w hconds.1 hconds.2
  constructor
  · intro u hu gu hg hle hstrict
    have hmemEli : u ∈ (lunchWinners db w).filter (winnerEligible T) :=
      List.mem_filter.mpr ⟨hu, by simp [winnerEligible, hg, hle]⟩
    have hdom : ∀ v ∈ (lunchWinners db w).filter (winnerEligible T), v ≠ u →
        tbLt v u = true ∧ tbLt u v = false := by
      intro v hv hne
      obtain ⟨hvw, hvpred⟩ := List.mem_filter.mp hv
      cases hvt : v.tb with
      | none => rw [winnerEligible, hvt] at hvpred; simp at hvpred
      | some gv =>
        rw [winnerEligible, hvt] at hvpred
        have hvle : gv ≤ T := by simpa using hvpred
        have hlt := hstrict v hvw hne gv hvt hvle
        constructor
        · simp [tbLt, hvt, hg, hlt]
        · simp [tbLt, hvt, hg]
          omega
    have hpymax : pyMaxBy tbLt ((lunchWinners db w).filter (winnerEligible T))
        = some u :=
      pyMaxBy_eq_of_strictMax tbLt _ u hmemEli (by simp [tbLt]) hdom
    have happ : applyWinnerTiebreak (lunchWinners db w) (lunchWeekFinalized db w)
        (lunchActualTotal db w) = ([u], true) := by
      rw [hT, hfin]
      unfold applyWinnerTiebreak
      dsimp only
      rw [if_pos (by simp [hmulti]), hpymax]
    rw [hmain]
    simp [happ]
  · intro hnone
    have heli : (lunchWinners db w).filter (winnerEligible T) = [] := by
      apply List.filter_eq_nil.mpr
      intro v hv
      cases hvt : v.tb with
      | none => simp [winnerEligible, hvt]
      | some gv =>
        have := hnone v hv gv hvt
        simp [winnerEligible, hvt]
        omega
    have happ : applyWinnerTiebreak (lunchWinners db w) (lunchWeekFinalized db w)
        (lunchActualTotal db w) = (lunchWinners db w, false) := by
      rw [hT, hfin]
      unfold applyWinnerTiebreak
      dsimp only
      rw [if_pos (by simp [hmulti]), heli]
      rfl
    rw [hmain]
    simp [happ]
/-- C2 fixture: users A (guess 40) and B (guess 45) both pick every winner;
the last final game totals 44 points. -/
def c2wWeek : WeekRow :=
  { id := 1, seasonId := 1, weekNumber := 1, seasonType := 2, firstKickoffAt := 0 }

def c2wDb : DB :=
  { seasons := [{ id := 1, year := 2024, isActive := true }]
    weeks := [c2wWeek]
    games := [
      { id := 10, seasonId := 1, weekId := 1, homeTeamId := 100, awayTeamId := 101
        startTime := 5, status := GameStatus.final, homeScore := 20, awayScore := 24
        providerGameId := none },
      { id := 11, seasonId := 1, weekId := 1, homeTeamId := 102, awayTeamId := 103
        startTime := 9, status := GameStatus.final, homeScore := 30, awayScore := 14
        providerGameId := none }]
    picks := [{ userId := 1, gameId := 10, chosenTeamId := 101 },
      { userId := 1, gameId := 11, chosenTeamId := 102 },
      { userId := 2, gameId := 10, chosenTeamId := 101 },
      { userId := 2, gameId := 11, chosenTeamId := 102 }]
    users := [{ id := 1, username := "a", firstName := "A", lastName := "" },
      { id := 2, username := "b", firstName := "B", lastName := "" }]
    tiebreakers := [{ userId := 1, weekId := 1, guessPoints := 40 },
      { userId := 2, weekId := 1, guessPoints := 45 }] }

theorem c2_witness :
    lunchWeekFinalized c2wDb c2wWeek = true ∧
    lunchActualTotal c2wDb c2wWeek = some 44 ∧
    1 < (lunchWinners c2wDb c2wWeek).length ∧
    (weeklyLunch c2wDb (some c2wWeek)).winnerUids = [1] ∧
    (weeklyLunch c2wDb (some c2wWeek)).tbApplied = true := by
  have h := (c2_winner_tiebreak c2wDb c2wWeek 44 (by decide) (by decide) (by decide)).1
  have h2 := h { userId := 1, name := "A", correct := 2, picks := 2, tb := some 40 }
    (by decide) 40 rfl (by decide) (by decide)
  exact ⟨by decide, by decide, by decide, h2.1, h2.2⟩
theorem lexLtNI_asymm (p q : Nat × Int) (h : lexLtNI p q = true) :
    lexLtNI q p = false := by
  rcases p with ⟨m, i⟩
  rcases q with ⟨n, j⟩
  simp only [lexLtNI, Bool.or_eq_true, Bool.and_eq_true, decide_eq_true_eq,
    beq_iff_eq] at h
  rw [Bool.eq_false_iff]
  intro hc
  simp only [lexLtNI, Bool.or_eq_true, Bool.and_eq_true, decide_eq_true_eq,
    beq_iff_eq] at hc
  rcases h with h | ⟨h1, h2⟩ <;> rcases hc with hc | ⟨hc1, hc2⟩ <;> omega

theorem lunchLosers_sub_rows (db : DB) (w : WeekRow)
    (h : lunchLosers db w ≠ []) : lunchRows db w ≠ [] := by
  intro hr
  apply h
  unfold lunchLosers
  rw [hr]
  simp

/-- **C3.** Loser tiebreak ranking: within guesses at or under the actual
total, farther below is worse; any guess over the total is worse than any
at-or-under guess, and farther above is worse; a missing guess is worst of
all.  With more than one tied loser, a finalized week and an actual total,
the strictly worst-ranked candidate becomes the sole loser. -/
theorem c3_loser_tiebreak (db : DB) (w : WeekRow) (T : Int)
    (hfin : lunchWeekFinalized db w = true)
    (hT : lunchActualTotal db w = some T)
    (hmulti : 1 < (lunchLosers db w).length) :
    (∀ a b : LunchRow, ∀ ga gb, a.tb = some ga → b.tb = some gb →
      ga ≤ T → gb ≤ T → ga < gb → lossLt T b a = true) ∧
    (∀ a b : LunchRow, ∀ ga gb, a.tb = some ga → b.tb = some gb →
      ga ≤ T → T < gb → lossLt T a b = true) ∧
    (∀ a b : LunchRow, ∀ ga gb, a.tb = some ga → b.tb = some gb →
      T < ga → T < gb → ga < gb → lossLt T a b = true) ∧
    (∀ a b : LunchRow, ∀ ga, a.tb = some ga → b.tb = none →
      lossLt T a b = true) ∧
    (∀ u ∈ lunchLosers db w,
      (∀ v ∈ lunchLosers db w, v ≠ u → lossLt T v u = true) →
      (weeklyLunch db (some w)).loserUids = [u.userId] ∧
        (weeklyLunch db (some w)).loserTbApplied = true) := by
  refine ⟨?_, ?_, ?_, ?_, ?_⟩
  · intro a b ga gb ha hb hgaT hgbT hlt
    simp only [lossLt, lossKey, ha, hb, if_pos hgaT, if_pos hgbT, lexLtNI]
    simp
    omega
  · intro a b ga gb ha hb hgaT hgbT
    simp only [lossLt, lossKey, ha, hb, if_pos hgaT, if_neg (by omega : ¬ gb ≤ T),
      lexLtNI]
    simp
  · intro a b ga gb ha hb hgaT hgbT hlt
    simp only [lossLt, lossKey, ha, hb, if_neg (by omega : ¬ ga ≤ T),
      if_neg (by omega : ¬ gb ≤ T), lexLtNI]
    simp
    omega
  · intro a b ga ha hb
    by_cases hgaT : ga ≤ T <;>
      simp [lossLt, lossKey, ha, hb, hgaT, lexLtNI]
  · intro u hu hworst
    have hlne : lunchLosers db w ≠ [] := by
      intro h
      rw [h] at hmulti
      simp at hmulti
    have hconds := lunch_main_conditions db w (lunchLosers_sub_rows db w hlne)
    have hmain := weeklyLunch_main db w hconds.1 hconds.2
    have hdom : ∀ v ∈ lunchLosers db w, v ≠ u →
        lossLt T v u = true ∧ lossLt T u v = false := by
      intro v hv hne
      have h1 := hworst v hv hne
      exact ⟨h1, lexLtNI_asymm _ _ h1⟩
    have hpymax : pyMaxBy (lossLt T) (lunchLosers db w) = some u :=
      pyMaxBy_eq_of_strictMax (lossLt T) _ u hu
        (by rcases hk : lossKey T u with ⟨m, i⟩; simp [lossLt, hk, lexLtNI]) hdom
    have happ : applyLoserTiebreak (lunchLosers db w) (lunchWeekFinalized db w)
        (lunchActualTotal db w) = ([u], true) := by
      rw [hT, hfin]
      unfold applyLoserTiebreak
      dsimp only
      rw [if_pos (by simp [hmulti]), hpymax]
    rw [hmain]
    simp [happ]
/-- C3 fixture: tied losers C (guess 50, over the actual total 44) and D (no
guess); E has the only correct pick. -/
def c3wWeek : WeekRow :=
  { id := 1, seasonId := 1, weekNumber := 1, seasonType := 2, firstKickoffAt := 0 }

def c3wDb : DB :=
  { seasons := [{ id := 1, year := 2024, isActive := true }]
    weeks := [c3wWeek]
    games := [
      { id := 10, seasonId := 1, weekId := 1, homeTeamId := 100, awayTeamId := 101
        startTime := 5, status := GameStatus.final, homeScore := 20, awayScore := 24
        providerGameId := none },
      { id := 11, seasonId := 1, weekId := 1, homeTeamId := 102, awayTeamId := 103
        startTime := 9, status := GameStatus.final, homeScore := 30, awayScore := 14
        providerGameId := none }]
    picks := [{ userId := 1, gameId := 10, chosenTeamId := 100 },
      { userId := 2, gameId := 10, chosenTeamId := 100 },
      { userId := 3, gameId := 10, chosenTeamId := 101 }]
    users := [{ id := 1, username := "c", firstName := "C", lastName := "" },
      { id := 2, username := "d", firstName := "D", lastName := "" },
      { id := 3, username := "e", firstName := "E", lastName := "" }]
    tiebreakers := [{ userId := 1, weekId := 1, guessPoints := 50 }] }

theorem c3_witness :
    lunchWeekFinalized c3wDb c3wWeek = true ∧
    lunchActualTotal c3wDb c3wWeek = some 44 ∧
    1 < (lunchLosers c3wDb c3wWeek).length ∧
    (weeklyLunch c3wDb (some c3wWeek)).loserUids = [2] ∧
    (weeklyLunch c3wDb (some c3wWeek)).loserTbApplied = true := by
  have h := (c3_loser_tiebreak c3wDb c3wWeek 44 (by decide) (by decide) (by decide)).2.2.2.2
  have h2 := h { userId := 2, name := "D", correct := 0, picks := 1, tb := none }
    (by decide) (by decide)
  exact ⟨by decide, by decide, by decide, h2.1, h2.2⟩
/-! ## Schedule importer (`app/services/nfl/importer.py`) -/

structure ProviderGame where
  homeAbbr : String
  awayAbbr : String
  startTime : Int
  providerGameId : Option String
  deriving DecidableEq, Repr

structure TeamRow where
  id : Nat
  abbr : String
  altAbbrs : List String
  deriving DecidableEq, Repr

/-- `_team_lookup_map` (importer.py lines 13–22): abbreviation and every
alternate abbreviation, uppercased, map to the team; later teams overwrite
earlier dict entries. -/
def teamLookupMap (teams : List TeamRow) : List (String × Nat) :=
  teams.foldl
    (fun out t =>
      let out := if t.abbr != "" then setA out (strUpper t.abbr) t.id else out
      t.altAbbrs.foldl (fun out alt => setA out (strUpper alt) t.id) out)
    []

/-- `lookup.get(pg.home_abbr.upper())` and the away analogue; the entry is
skipped when either side is missing. -/
def resolveTeams (lookup : List (String × Nat)) (pg : ProviderGame) :
    Option (Nat × Nat) :=
  match lookupA lookup (strUpper pg.homeAbbr), lookupA lookup (strUpper pg.awayAbbr) with
  | some h, some a => some (h, a)
  | _, _ => none

/-- `Game.week_id == week.id and Game.provider_game_id == pg.provider_game_id`. -/
def gameMatchesById (weekId : Nat) (pid : Option String) (g : Game) : Bool :=
  g.weekId == weekId && g.providerGameId == pid

/-- The exact `(home, away, start_time)` fallback filter. -/
def gameMatchesByKey (weekId h a : Nat) (t : Int) (g : Game) : Bool :=
  g.weekId == weekId && g.homeTeamId == h && g.awayTeamId == a && g.startTime == t

/-- The minimal-update block (importer.py lines 174–188): returns the
updated row and the `changed` flag; an unchanged row is not counted. -/
def applyGameUpdate (g : Game) (pg : ProviderGame) (h a : Nat) : Game × Bool :=
  let s1 := if g.startTime != pg.startTime
    then ({ g with startTime := pg.startTime }, true) else (g, false)
  let s2 := if s1.1.homeTeamId != h || s1.1.awayTeamId != a
    then ({ s1.1 with homeTeamId := h, awayTeamId := a }, true) else s1
  if pyTruthy pg.providerGameId && s2.1.providerGameId != pg.providerGameId
    then ({ s2.1 with providerGameId := pg.providerGameId }, true) else s2

/-- A freshly created Game row (importer.py lines 162–173); `gid` models the
database-assigned primary key. -/
def mkGame (gid seasonId weekId : Nat) (pg : ProviderGame) (h a : Nat) : Game :=
  { id := gid, seasonId := seasonId, weekId := weekId, homeTeamId := h
    awayTeamId := a, startTime := pg.startTime, status := GameStatus.scheduled
    homeScore := 0, awayScore := 0, providerGameId := pg.providerGameId }


/-- In-session state of one `import_week_schedule` run.  The session is
created with `autoflush=False` (app/db/session.py line 15) and the game
loop never flushes, so the loop's queries evaluate their filters against
the committed rows at the start of the run: rows staged with `db.add`
(`added`) are invisible to them, and in-run mutations do not change which
row a filter matches.  A query hit on a committed row returns the
session's identity-mapped object, i.e. the corresponding (possibly
already mutated) row of `cur`.  `nextId` models the autoincrement primary
key; the staged rows receive their ids at commit in insertion order,
which assigning at creation reproduces because `added` stays invisible
until then. -/
structure ImportState where
  cur : List Game
  added : List Game
  nextId : Nat
  upserted : Nat
  deriving DecidableEq, Repr

/-- The committed outcome of one run. -/
structure ImportResult where
  games : List Game
  nextId : Nat
  upserted : Nat
  deriving DecidableEq, Repr

/-- The identity-mapped session object for a committed row: the `cur` row
with the same primary key (the fallback is unreachable when primary keys
are distinct). -/
def sessionRow (cur : List Game) (b : Game) : Game :=
  match cur.find? (fun g => g.id == b.id) with
  | some g => g
  | none => b

/-- The minimal-update block (importer.py lines 174-188) applied to the
identity-mapped object of the matched committed row `b`: mutate the
session row in place and count the change; an unchanged row is not
counted. -/
def importUpdate (st : ImportState) (b : Game) (pg : ProviderGame)
    (h a : Nat) : ImportState :=
  if (applyGameUpdate (sessionRow st.cur b) pg h a).2 then
    { st with
      cur := replaceFirst (fun g => g.id == b.id)
        (applyGameUpdate (sessionRow st.cur b) pg h a).1 st.cur
      upserted := st.upserted + 1 }
  else st

/-- One iteration of the import loop (importer.py lines 140-190): resolve
teams (skip on failure), query by provider id first (when truthy) and then
by the exact key -- both filters evaluated against the committed rows
`base`, with `.first()` returning the earliest row in rowid order -- then
create (staging an insert that later queries of the run cannot see) or
minimally update the matched session object. -/
def importStep (lookup : List (String × Nat)) (seasonId weekId : Nat)
    (base : List Game) (st : ImportState) (pg : ProviderGame) : ImportState :=
  match resolveTeams lookup pg with
  | none => st
  | some (h, a) =>
    match (if pyTruthy pg.providerGameId
        then base.find? (gameMatchesById weekId pg.providerGameId) else none) with
    | some b => importUpdate st b pg h a
    | none =>
      match base.find? (gameMatchesByKey weekId h a pg.startTime) with
      | some b => importUpdate st b pg h a
      | none =>
        { cur := st.cur
          added := st.added ++ [mkGame st.nextId seasonId weekId pg h a]
          nextId := st.nextId + 1
          upserted := st.upserted + 1 }

/-- `db.commit()` at the end of the run: the staged inserts are flushed
after the committed rows. -/
def commitRun (st : ImportState) : ImportResult :=
  { games := st.cur ++ st.added, nextId := st.nextId, upserted := st.upserted }

/-- `import_week_schedule` (importer.py lines 101-198) restricted to its
Game-upsert loop.  Season/week bootstrapping and the Week first-kickoff
refresh touch no Game row and are not modelled; an empty payload returns
before the loop. -/
def importWeekSchedule (lookup : List (String × Nat)) (seasonId weekId : Nat)
    (games0 : List Game) (nextId0 : Nat) (payload : List ProviderGame) :
    ImportResult :=
  if payload.isEmpty then { games := games0, nextId := nextId0, upserted := 0 }
  else commitRun (payload.foldl (importStep lookup seasonId weekId games0)
    { cur := games0, added := [], nextId := nextId0, upserted := 0 })
/-- Two-team lookup used by the C6 fixtures. -/
def c6Lookup : List (String × Nat) :=
  teamLookupMap [{ id := 1, abbr := "H", altAbbrs := [] },
    { id := 2, abbr := "A", altAbbrs := [] }]

/-- A payload whose two entries carry the same external id with different
start times. -/
def c6BadPayload : List ProviderGame :=
  [{ homeAbbr := "H", awayAbbr := "A", startTime := 10, providerGameId := some "X" },
   { homeAbbr := "H", awayAbbr := "A", startTime := 20, providerGameId := some "X" }]

/-- **C6 counterexample.** Importing `c6BadPayload` twice into an empty week
refutes idempotence.  On the first run the second entry's queries cannot
see the first entry's pending insert (`autoflush=False`), so the run
creates two rows for the shared external id `"X"`.  On the second run both
entries' id-queries return the first committed row, and the second entry
finds its start time differing (10 vs 20) and updates it: the second run
reports an upserted count of 1, not 0, and mutates a Game row. -/
theorem c6_counterexample :
    (importWeekSchedule c6Lookup 1 1 [] 100 c6BadPayload).games.length = 2 ∧
    (importWeekSchedule c6Lookup 1 1
        (importWeekSchedule c6Lookup 1 1 [] 100 c6BadPayload).games
        (importWeekSchedule c6Lookup 1 1 [] 100 c6BadPayload).nextId
        c6BadPayload).upserted = 1 ∧
    ¬ (importWeekSchedule c6Lookup 1 1
        (importWeekSchedule c6Lookup 1 1 [] 100 c6BadPayload).games
        (importWeekSchedule c6Lookup 1 1 [] 100 c6BadPayload).nextId
        c6BadPayload).upserted = 0 ∧
    ¬ (importWeekSchedule c6Lookup 1 1
        (importWeekSchedule c6Lookup 1 1 [] 100 c6BadPayload).games
        (importWeekSchedule c6Lookup 1 1 [] 100 c6BadPayload).nextId
        c6BadPayload).games
      = (importWeekSchedule c6Lookup 1 1 [] 100 c6BadPayload).games := by
  decide
/-- Two payload entries that can never contend for the same Game row: their
truthy external ids differ and their resolved `(home, away, start_time)`
keys differ. -/
def entryCompat (lookup : List (String × Nat)) (e f : ProviderGame) : Prop :=
  (resolveTeams lookup e).isSome → (resolveTeams lookup f).isSome →
    (pyTruthy e.providerGameId = true → pyTruthy f.providerGameId = true →
      e.providerGameId ≠ f.providerGameId) ∧
    (resolveTeams lookup e ≠ resolveTeams lookup f ∨ e.startTime ≠ f.startTime)

instance (lookup : List (String × Nat)) : DecidableRel (entryCompat lookup) :=
  fun e f => by
    unfold entryCompat
    infer_instance

/-- The rows a first import into an empty week creates, one per resolvable
payload entry, with consecutively assigned ids. -/
def buildRows (lookup : List (String × Nat)) (sid wid : Nat) :
    Nat → List ProviderGame → List Game
  | _, [] => []
  | n, pg :: rest =>
    match resolveTeams lookup pg with
    | some (h, a) => mkGame n sid wid pg h a :: buildRows lookup sid wid (n + 1) rest
    | none => buildRows lookup sid wid n rest

def countResolvable (lookup : List (String × Nat)) (P : List ProviderGame) : Nat :=
  (P.filter (fun pg => (resolveTeams lookup pg).isSome)).length

theorem buildRows_cons (lookup : List (String × Nat)) (sid wid n : Nat)
    (pg : ProviderGame) (rest : List ProviderGame) :
    buildRows lookup sid wid n (pg :: rest) =
      match resolveTeams lookup pg with
      | some (h, a) => mkGame n sid wid pg h a :: buildRows lookup sid wid (n + 1) rest
      | none => buildRows lookup sid wid n rest := rfl

/-- `g` can be matched by neither of entry `pg`'s two searches. -/
def cleanFor (lookup : List (String × Nat)) (wid : Nat) (g : Game)
    (pg : ProviderGame) : Prop :=
  (pyTruthy pg.providerGameId = true →
    gameMatchesById wid pg.providerGameId g = false) ∧
  (∀ h a, resolveTeams lookup pg = some (h, a) →
    gameMatchesByKey wid h a pg.startTime g = false)

theorem mkGame_cleanFor (lookup : List (String × Nat)) (sid wid m : Nat)
    (pg f : ProviderGame) (h a : Nat)
    (hres : resolveTeams lookup pg = some (h, a))
    (hcompat : entryCompat lookup pg f) :
    (resolveTeams lookup f).isSome →
      cleanFor lookup wid (mkGame m sid wid pg h a) f := by
  intro hfsome
  obtain ⟨hid, hkey⟩ := hcompat (by simp [hres]) hfsome
  constructor
  · intro htf
    show (wid == wid && (mkGame m sid wid pg h a).providerGameId == f.providerGameId)
        = false
    by_cases hpid : pg.providerGameId = f.providerGameId
    · have htp : pyTruthy pg.providerGameId = true := by rw [hpid]; exact htf
      exact absurd hpid (hid htp htf)
    · have : ((mkGame m sid wid pg h a).providerGameId == f.providerGameId) = false := by
        simp [mkGame]
        exact hpid
      simp [this]
  · intro hf af hresf
    show (wid == wid && (mkGame m sid wid pg h a).homeTeamId == hf &&
        (mkGame m sid wid pg h a).awayTeamId == af &&
        (mkGame m sid wid pg h a).startTime == f.startTime) = false
    rcases hkey with hk | hk
    · rw [hres, hresf] at hk
      have : h ≠ hf ∨ a ≠ af := by
        by_cases h1 : h = hf
        · by_cases h2 : a = af
          · exact absurd (by rw [h1, h2]) hk
          · exact Or.inr h2
        · exact Or.inl h1
      rcases this with h' | h'
      · have : ((mkGame m sid wid pg h a).homeTeamId == hf) = false := by
          simp [mkGame]; exact h'
        simp [this]
      · have : ((mkGame m sid wid pg h a).awayTeamId == af) = false := by
          simp [mkGame]; exact h'
        simp [this]
    · have : ((mkGame m sid wid pg h a).startTime == f.startTime) = false := by
        simp [mkGame]; exact hk
      simp [this]
theorem buildRows_mem_char (lookup : List (String × Nat)) (sid wid : Nat) :
    ∀ (P : List ProviderGame) (n : Nat) (g : Game),
      g ∈ buildRows lookup sid wid n P →
      ∃ f ∈ P, ∃ m h a, resolveTeams lookup f = some (h, a) ∧
        g = mkGame m sid wid f h a := by
  intro P
  induction P with
  | nil => intro n g hg; simp [buildRows] at hg
  | cons pg rest ih =>
    intro n g hg
    rw [buildRows_cons] at hg
    cases hres : resolveTeams lookup pg with
    | none =>
      rw [hres] at hg
      obtain ⟨f, hf, rest'⟩ := ih n g hg
      exact ⟨f, List.mem_cons_of_mem _ hf, rest'⟩
    | some ha =>
      obtain ⟨h, a⟩ := ha
      rw [hres] at hg
      rcases List.mem_cons.mp hg with hg' | hg'
      · exact ⟨pg, List.mem_cons_self _ _, n, h, a, hres, hg'⟩
      · obtain ⟨f, hf, rest'⟩ := ih (n + 1) g hg'
        exact ⟨f, List.mem_cons_of_mem _ hf, rest'⟩

theorem buildRows_mem_of (lookup : List (String × Nat)) (sid wid : Nat) :
    ∀ (P : List ProviderGame) (n : Nat) (pg : ProviderGame) (h a : Nat),
      pg ∈ P → resolveTeams lookup pg = some (h, a) →
      ∃ m, mkGame m sid wid pg h a ∈ buildRows lookup sid wid n P := by
  intro P
  induction P with
  | nil => intro n pg h a hmem; simp at hmem
  | cons q rest ih =>
    intro n pg h a hmem hres
    rw [buildRows_cons]
    rcases List.mem_cons.mp hmem with hm | hm
    · subst hm
      rw [hres]
      exact ⟨n, List.mem_cons_self _ _⟩
    · cases hq : resolveTeams lookup q with
      | none =>
        exact ih n pg h a hm hres
      | some hb =>
        obtain ⟨hq1, hq2⟩ := hb
        obtain ⟨m, hmm⟩ := ih (n + 1) pg h a hm hres
        exact ⟨m, List.mem_cons_of_mem _ hmm⟩

theorem pairwise_pid_inj (lookup : List (String × Nat)) (P : List ProviderGame)
    (hpair : P.Pairwise (entryCompat lookup)) :
    ∀ e ∈ P, ∀ f ∈ P, (resolveTeams lookup e).isSome → (resolveTeams lookup f).isSome →
      pyTruthy e.providerGameId = true → e.providerGameId = f.providerGameId →
      e = f := by
  induction P with
  | nil => intro e he; simp at he
  | cons x rest ih =>
    rw [List.pairwise_cons] at hpair
    intro e he f hf hse hsf hte hpid
    have htf : pyTruthy f.providerGameId = true := by rw [← hpid]; exact hte
    rcases List.mem_cons.mp he with he' | he' <;> rcases List.mem_cons.mp hf with hf' | hf'
    · rw [he', hf']
    · subst he'
      exact absurd hpid ((hpair.1 f hf' hse hsf).1 hte htf)
    · subst hf'
      exact absurd hpid.symm ((hpair.1 e he' hsf hse).1 htf hte)
    · exact ih hpair.2 e he' f hf' hse hsf hte hpid

theorem pairwise_key_inj (lookup : List (String × Nat)) (P : List ProviderGame)
    (hpair : P.Pairwise (entryCompat lookup)) :
    ∀ e ∈ P, ∀ f ∈ P, ∀ h a, resolveTeams lookup e = some (h, a) →
      resolveTeams lookup f = some (h, a) → e.startTime = f.startTime → e = f := by
  induction P with
  | nil => intro e he; simp at he
  | cons x rest ih =>
    rw [List.pairwise_cons] at hpair
    intro e he f hf h a hre hrf hst
    rcases List.mem_cons.mp he with he' | he' <;> rcases List.mem_cons.mp hf with hf' | hf'
    · rw [he', hf']
    · subst he'
      rcases (hpair.1 f hf' (by simp [hre]) (by simp [hrf])).2 with hk | hk
      · exact absurd (by rw [hre, hrf]) hk
      · exact absurd hst hk
    · subst hf'
      rcases (hpair.1 e he' (by simp [hrf]) (by simp [hre])).2 with hk | hk
      · exact absurd (by rw [hre, hrf]) hk
      · exact absurd hst.symm hk
    · exact ih hpair.2 e he' f hf' h a hre hrf hst

theorem foldl_fixed {α β : Type} (f : β → α → β) (st : β) (l : List α)
    (h : ∀ x ∈ l, f st x = st) : l.foldl f st = st := by
  induction l with
  | nil => rfl
  | cons x rest ih =>
    simp only [List.foldl_cons, h x (List.mem_cons_self _ _)]
    exact ih (fun y hy => h y (List.mem_cons_of_mem _ hy))
theorem applyGameUpdate_self (m sid wid : Nat) (pg : ProviderGame) (h a : Nat) :
    applyGameUpdate (mkGame m sid wid pg h a) pg h a
      = (mkGame m sid wid pg h a, false) := by
  simp [applyGameUpdate, mkGame]

theorem applyGameUpdate_matched_key (g : Game) (pg : ProviderGame) (h a : Nat)
    (hs : g.startTime = pg.startTime) (hh : g.homeTeamId = h)
    (haa : g.awayTeamId = a) (ht : pyTruthy pg.providerGameId = false) :
    applyGameUpdate g pg h a = (g, false) := by
  simp [applyGameUpdate, hs, hh, haa, ht]
/-- With every committed row clean for every resolvable payload entry, the
loop's queries all miss: each resolvable entry stages a fresh insert and
counts one upsert, and the committed rows are never touched. -/
theorem importFold_fresh (lookup : List (String × Nat)) (sid wid : Nat)
    (base : List Game) :
    ∀ (P : List ProviderGame) (st : ImportState),
      (∀ g ∈ base, ∀ pg ∈ P, (resolveTeams lookup pg).isSome →
        cleanFor lookup wid g pg) →
      P.foldl (importStep lookup sid wid base) st =
        { cur := st.cur
          added := st.added ++ buildRows lookup sid wid st.nextId P
          nextId := st.nextId + countResolvable lookup P
          upserted := st.upserted + countResolvable lookup P } := by
  intro P
  induction P with
  | nil =>
    intro st _
    cases st
    simp [buildRows, countResolvable]
  | cons pg rest ih =>
    intro st hclean
    simp only [List.foldl_cons]
    cases hres : resolveTeams lookup pg with
    | none =>
      have hstep : importStep lookup sid wid base st pg = st := by
        simp only [importStep, hres]
      rw [hstep, ih st (fun g hg f hf hsome =>
        hclean g hg f (List.mem_cons_of_mem _ hf) hsome)]
      have hb : buildRows lookup sid wid st.nextId (pg :: rest)
          = buildRows lookup sid wid st.nextId rest := by
        rw [buildRows_cons, hres]
      have hc : countResolvable lookup (pg :: rest) = countResolvable lookup rest := by
        unfold countResolvable
        rw [List.filter_cons, hres]
        simp
      rw [hb, hc]
    | some ha =>
      obtain ⟨h, a⟩ := ha
      have hfind1 : (if pyTruthy pg.providerGameId
          then base.find? (gameMatchesById wid pg.providerGameId) else none)
          = none := by
        by_cases ht : pyTruthy pg.providerGameId = true
        · rw [if_pos ht, List.find?_eq_none]
          intro g hg
          have := (hclean g hg pg (List.mem_cons_self _ _) (by simp [hres])).1 ht
          simp [this]
        · rw [if_neg ht]
      have hfind2 : base.find? (gameMatchesByKey wid h a pg.startTime) = none := by
        rw [List.find?_eq_none]
        intro g hg
        have := (hclean g hg pg (List.mem_cons_self _ _) (by simp [hres])).2 h a hres
        simp [this]
      have hstep : importStep lookup sid wid base st pg =
          { cur := st.cur
            added := st.added ++ [mkGame st.nextId sid wid pg h a]
            nextId := st.nextId + 1
            upserted := st.upserted + 1 } := by
        simp only [importStep, hres, hfind1, hfind2]
      rw [hstep]
      rw [ih _ (fun g hg f hf hsome =>
        hclean g hg f (List.mem_cons_of_mem _ hf) hsome)]
      have hb : buildRows lookup sid wid st.nextId (pg :: rest)
          = mkGame st.nextId sid wid pg h a
              :: buildRows lookup sid wid (st.nextId + 1) rest := by
        rw [buildRows_cons, hres]
      have hc : countResolvable lookup (pg :: rest)
          = countResolvable lookup rest + 1 := by
        unfold countResolvable
        rw [List.filter_cons]
        simp [hres, Nat.add_comm]
      rw [hb, hc]
      simp only [List.append_assoc, List.singleton_append]
      congr 1 <;> omega

theorem buildRows_id_ge (lookup : List (String × Nat)) (sid wid : Nat) :
    ∀ (P : List ProviderGame) (n : Nat) (g : Game),
      g ∈ buildRows lookup sid wid n P → n ≤ g.id := by
  intro P
  induction P with
  | nil => intro n g hg; simp [buildRows] at hg
  | cons pg rest ih =>
    intro n g hg
    rw [buildRows_cons] at hg
    cases hres : resolveTeams lookup pg with
    | none =>
      rw [hres] at hg
      exact ih n g hg
    | some ha =>
      obtain ⟨h, a⟩ := ha
      rw [hres] at hg
      rcases List.mem_cons.mp hg with hg' | hg'
      · rw [hg']; exact Nat.le_refl n
      · exact Nat.le_of_succ_le (ih (n + 1) g hg')

theorem buildRows_ids_nodup (lookup : List (String × Nat)) (sid wid : Nat) :
    ∀ (P : List ProviderGame) (n : Nat),
      ((buildRows lookup sid wid n P).map (fun g => g.id)).Nodup := by
  intro P
  induction P with
  | nil => intro n; simp [buildRows]
  | cons pg rest ih =>
    intro n
    rw [buildRows_cons]
    cases hres : resolveTeams lookup pg with
    | none => exact ih n
    | some ha =>
      obtain ⟨h, a⟩ := ha
      simp only [List.map_cons, List.nodup_cons]
      refine ⟨?_, ih (n + 1)⟩
      intro hmem
      rw [List.mem_map] at hmem
      obtain ⟨g, hg, hid⟩ := hmem
      have hge := buildRows_id_ge lookup sid wid rest (n + 1) g hg
      have hid' : g.id = n := hid
      omega

theorem find_id_self :
    ∀ (l : List Game), ((l.map (fun g => g.id)).Nodup) →
      ∀ g ∈ l, l.find? (fun x => x.id == g.id) = some g := by
  intro l
  induction l with
  | nil => intro _ g hg; cases hg
  | cons x rest ih =>
    intro hnod g hg
    simp only [List.map_cons, List.nodup_cons] at hnod
    rcases List.mem_cons.mp hg with hg' | hg'
    · subst hg'
      simp [List.find?]
    · have hxg : x.id ≠ g.id := by
        intro he
        exact hnod.1 (List.mem_map.mpr ⟨g, hg', he.symm⟩)
      have hne : (x.id == g.id) = false := by simpa using hxg
      simp only [List.find?, hne]
      exact ih hnod.2 g hg'

theorem sessionRow_self (l : List Game)
    (hnod : (l.map (fun g => g.id)).Nodup) (b : Game) (hb : b ∈ l) :
    sessionRow l b = b := by
  unfold sessionRow
  rw [find_id_self l hnod b hb]
/-- After a fresh first import, every payload entry's query returns its own
committed row (the clean pre-existing rows never match, and pairwise
compatibility keeps the created rows apart), whose data already equals the
entry's: the step is a no-op and counts nothing. -/
theorem importStep_noop (lookup : List (String × Nat)) (sid wid : Nat)
    (games0 : List Game) (n0 : Nat) (P : List ProviderGame)
    (hclean : ∀ g ∈ games0, ∀ pg ∈ P, (resolveTeams lookup pg).isSome →
      cleanFor lookup wid g pg)
    (hpair : P.Pairwise (entryCompat lookup))
    (hids : ∀ g ∈ games0, g.id < n0)
    (hnod0 : (games0.map (fun g => g.id)).Nodup)
    (pg : ProviderGame) (hpg : pg ∈ P) (st : ImportState)
    (hst : st.cur = games0 ++ buildRows lookup sid wid n0 P) :
    importStep lookup sid wid (games0 ++ buildRows lookup sid wid n0 P) st pg
      = st := by
  have hnod2 : (((games0 ++ buildRows lookup sid wid n0 P).map
      (fun g => g.id)).Nodup) := by
    rw [List.map_append, List.nodup_append]
    refine ⟨hnod0, buildRows_ids_nodup lookup sid wid P n0, ?_⟩
    intro i hi hj
    rw [List.mem_map] at hi hj
    obtain ⟨g1, hg1, hge1⟩ := hi
    obtain ⟨g2, hg2, hge2⟩ := hj
    have h1 := hids g1 hg1
    have h2 := buildRows_id_ge lookup sid wid P n0 g2 hg2
    omega
  cases hres : resolveTeams lookup pg with
  | none => simp only [importStep, hres]
  | some ha =>
    obtain ⟨h, a⟩ := ha
    by_cases ht : pyTruthy pg.providerGameId = true
    · -- the external-id query returns a row created from this very entry
      cases hf : (games0 ++ buildRows lookup sid wid n0 P).find?
          (gameMatchesById wid pg.providerGameId) with
      | none =>
        exfalso
        obtain ⟨m, hmm⟩ := buildRows_mem_of lookup sid wid P n0 pg h a hpg hres
        rw [List.find?_eq_none] at hf
        exact hf _ (List.mem_append_right _ hmm) (by simp [gameMatchesById, mkGame])
      | some b =>
        have hbmem := List.mem_of_find?_eq_some hf
        have hpredB := List.find?_some hf
        have hpred := hpredB
        simp only [gameMatchesById, Bool.and_eq_true, beq_iff_eq] at hpred
        rcases List.mem_append.mp hbmem with hg0 | hgb
        · exfalso
          have hcl := (hclean b hg0 pg hpg (by simp [hres])).1 ht
          rw [hpredB] at hcl
          cases hcl
        · obtain ⟨f, hfP, m, hf', af, hresf, hbeq⟩ :=
            buildRows_mem_char lookup sid wid P n0 b hgb
          have hfpid : f.providerGameId = pg.providerGameId := by
            have hb2 : b.providerGameId = pg.providerGameId := hpred.2
            rw [hbeq] at hb2
            simpa [mkGame] using hb2
          have hfe : pg = f :=
            pairwise_pid_inj lookup P hpair pg hpg f hfP (by simp [hres])
              (by simp [hresf]) ht hfpid.symm
          subst hfe
          rw [hres] at hresf
          have hpe : h = hf' ∧ a = af := by simpa using hresf
          rw [← hpe.1, ← hpe.2] at hbeq
          simp only [importStep, hres, ht, if_pos, hf]
          unfold importUpdate
          have hsr : sessionRow st.cur b = b := by
            rw [hst]
            exact sessionRow_self _ hnod2 b hbmem
          rw [hsr, hbeq, applyGameUpdate_self]
          simp
    · -- id search skipped; the exact-key query returns a row already
      -- carrying the entry's data, and a falsy id is never written
      cases hf : (games0 ++ buildRows lookup sid wid n0 P).find?
          (gameMatchesByKey wid h a pg.startTime) with
      | none =>
        exfalso
        obtain ⟨m, hmm⟩ := buildRows_mem_of lookup sid wid P n0 pg h a hpg hres
        rw [List.find?_eq_none] at hf
        exact hf _ (List.mem_append_right _ hmm) (by simp [gameMatchesByKey, mkGame])
      | some b =>
        have hbmem := List.mem_of_find?_eq_some hf
        have hpred := List.find?_some hf
        simp only [gameMatchesByKey, Bool.and_eq_true, beq_iff_eq] at hpred
        have hnoop := applyGameUpdate_matched_key b pg h a hpred.2 hpred.1.1.2
          hpred.1.2 (by simpa using ht)
        simp only [importStep, hres, ht, if_neg, hf]
        unfold importUpdate
        have hsr : sessionRow st.cur b = b := by
          rw [hst]
          exact sessionRow_self _ hnod2 b hbmem
        rw [hsr, hnoop]
        simp
/-- **C6 (amended).** `import_week_schedule` is idempotent for a payload
whose resolvable entries carry pairwise distinct truthy external ids and
pairwise distinct resolved `(home, away, start_time)` keys, provided no
pre-existing committed row is matched by any entry's id- or key-query
(rows of other weeks, or of the target week but foreign to the payload);
primary keys are distinct and below the next autoincrement value, as the
database guarantees.  The second run then leaves the Game rows (hence
their count) unchanged and reports zero upserts.  Without the pairwise
condition idempotence fails: see the counterexample, where a shared
external id makes the second run report a nonzero count. -/
theorem c6_import_idempotent (lookup : List (String × Nat)) (sid wid : Nat)
    (games0 : List Game) (n0 : Nat) (P : List ProviderGame)
    (hclean : ∀ g ∈ games0, ∀ pg ∈ P, (resolveTeams lookup pg).isSome →
      cleanFor lookup wid g pg)
    (hpair : P.Pairwise (entryCompat lookup))
    (hids : ∀ g ∈ games0, g.id < n0)
    (hnod0 : (games0.map (fun g => g.id)).Nodup) :
    (importWeekSchedule lookup sid wid
        (importWeekSchedule lookup sid wid games0 n0 P).games
        (importWeekSchedule lookup sid wid games0 n0 P).nextId P).games
      = (importWeekSchedule lookup sid wid games0 n0 P).games ∧
    (importWeekSchedule lookup sid wid
        (importWeekSchedule lookup sid wid games0 n0 P).games
        (importWeekSchedule lookup sid wid games0 n0 P).nextId P).upserted = 0 := by
  by_cases hP : P.isEmpty
  · simp [importWeekSchedule, hP]
  · have hr1 : importWeekSchedule lookup sid wid games0 n0 P =
        { games := games0 ++ buildRows lookup sid wid n0 P
          nextId := n0 + countResolvable lookup P
          upserted := 0 + countResolvable lookup P } := by
      unfold importWeekSchedule
      rw [if_neg hP]
      rw [importFold_fresh lookup sid wid games0 P
        { cur := games0, added := [], nextId := n0, upserted := 0 } hclean]
      simp [commitRun]
    rw [hr1]
    have hr2 : importWeekSchedule lookup sid wid
        (games0 ++ buildRows lookup sid wid n0 P)
        (n0 + countResolvable lookup P) P =
        { games := games0 ++ buildRows lookup sid wid n0 P
          nextId := n0 + countResolvable lookup P
          upserted := 0 } := by
      unfold importWeekSchedule
      rw [if_neg hP]
      rw [foldl_fixed _ _ P
        (fun pg hpg => importStep_noop lookup sid wid games0 n0 P hclean hpair
          hids hnod0 pg hpg _ rfl)]
      simp [commitRun]
    rw [hr2]
    exact ⟨rfl, rfl⟩
/-- A well-formed payload: distinct external ids and distinct keys. -/
def c6wPayload : List ProviderGame :=
  [{ homeAbbr := "H", awayAbbr := "A", startTime := 10, providerGameId := some "X" },
   { homeAbbr := "A", awayAbbr := "H", startTime := 20, providerGameId := some "Y" }]

/-- A committed row of a different week (id below the next autoincrement
value), untouched by the payload's queries. -/
def c6wGames0 : List Game :=
  [{ id := 5, seasonId := 1, weekId := 2, homeTeamId := 1, awayTeamId := 2
     startTime := 3, status := GameStatus.final, homeScore := 7, awayScore := 3
     providerGameId := some "Z" }]

theorem c6_witness :
    c6wPayload.Pairwise (entryCompat c6Lookup) ∧
    (importWeekSchedule c6Lookup 1 1
        (importWeekSchedule c6Lookup 1 1 c6wGames0 100 c6wPayload).games
        (importWeekSchedule c6Lookup 1 1 c6wGames0 100 c6wPayload).nextId
        c6wPayload).games
      = (importWeekSchedule c6Lookup 1 1 c6wGames0 100 c6wPayload).games ∧
    (importWeekSchedule c6Lookup 1 1
        (importWeekSchedule c6Lookup 1 1 c6wGames0 100 c6wPayload).games
        (importWeekSchedule c6Lookup 1 1 c6wGames0 100 c6wPayload).nextId
        c6wPayload).upserted = 0 := by
  have hclean : ∀ g ∈ c6wGames0, ∀ pg ∈ c6wPayload,
      (resolveTeams c6Lookup pg).isSome → cleanFor c6Lookup 1 g pg := by
    intro g hg pg hpg hres
    simp only [c6wGames0, List.mem_singleton] at hg
    subst hg
    exact ⟨fun _ => rfl, fun h a _ => rfl⟩
  have h := c6_import_idempotent c6Lookup 1 1 c6wGames0 100 c6wPayload hclean
    (by decide) (by decide) (by decide)
  exact ⟨by decide, h.1, h.2⟩
/-! ## Live score cache (`app/services/nfl/live.py`) -/

/-- Live per-event state (`LiveGame`).  The many presentation-only fields
(venue, weather, odds, win probabilities, ...) that `_parse_summary` fills
in are only rendered by templates; the embedding keeps the fields the cache
and status logic read. -/
structure LiveGameRow where
  eventId : String
  state : String
  homeScore : Option Int
  awayScore : Option Int
  deriving DecidableEq, Repr

/-- `LiveGame.is_live`. -/
def LiveGameRow.isLive (lg : LiveGameRow) : Bool := lg.state == "in"

/-- `LiveGame.is_final`. -/
def LiveGameRow.isFinal (lg : LiveGameRow) : Bool := lg.state == "post"

/-- Outcome of the remote summary request inside `fetch_live_event`. -/
inductive FetchOutcome
  | success (lg : LiveGameRow)
  | notFound
  | failure
  deriving DecidableEq, Repr

/-- `fetch_live_event` (live.py lines 87–109): a parsed summary on success;
a 404/410 records a negative-cache entry expiring at `now + negTtl`; any
other failure returns none without caching. -/
def fetchLiveEvent (fetcher : String → FetchOutcome) (negTtl now : Int)
    (negCache : List (String × Int)) (eid : String) :
    Option LiveGameRow × List (String × Int) :=
  match fetcher eid with
  | .success lg => (some lg, negCache)
  | .notFound => (none, setA negCache eid (now + negTtl))
  | .failure => (none, negCache)

/-- Python `set(e for e in event_ids if e)`, modelled as first-occurrence
dedup (iteration order does not affect the per-id results). -/
def pyDedupGo (seen : List String) : List String → List String
  | [] => []
  | x :: xs => if seen.contains x then pyDedupGo seen xs
    else x :: pyDedupGo (x :: seen) xs

def pyDedup (l : List String) : List String := pyDedupGo [] l

/-- One iteration of the first loop of `bulk_fetch_live_events` (live.py
lines 129–138): skip an id with a live negative entry, serve a fresh
positive entry, otherwise queue for fetching. -/
def bulkScanStep (ttl now : Int) (force : Bool)
    (cache : List (String × Int × LiveGameRow)) (neg : List (String × Int))
    (acc : List (String × LiveGameRow) × List String) (eid : String) :
    List (String × LiveGameRow) × List String :=
  let cached := lookupA cache eid
  let negExpiry := lookupA neg eid
  if force = false ∧ negExpiry.isSome ∧ now ≤ negExpiry.getD 0 then acc
  else
    match cached with
    | some c =>
      if force = false ∧ now - c.1 ≤ ttl then (setA acc.1 eid c.2, acc.2)
      else (acc.1, acc.2 ++ [eid])
    | none => (acc.1, acc.2 ++ [eid])

structure BulkState where
  out : List (String × LiveGameRow)
  cache : List (String × Int × LiveGameRow)
  neg : List (String × Int)
  deriving DecidableEq, Repr

/-- One iteration of the fetch loop (live.py lines 139–143). -/
def bulkFetchStep (fetcher : String → FetchOutcome) (negTtl now : Int)
    (st : BulkState) (eid : String) : BulkState :=
  match fetchLiveEvent fetcher negTtl now st.neg eid with
  | (some lg, neg') =>
    { out := setA st.out eid lg, cache := setA st.cache eid (now, lg), neg := neg' }
  | (none, neg') => { st with neg := neg' }

structure BulkResult where
  out : List (String × LiveGameRow)
  cache : List (String × Int × LiveGameRow)
  neg : List (String × Int)
  fetched : List String
  deriving DecidableEq, Repr

/-- `bulk_fetch_live_events` (live.py lines 112–144).  `fetched` records the
ids passed to `fetch_live_event` (exactly the `to_fetch` list); an id absent
from it triggered no outbound request. -/
def bulkFetchLiveEvents (fetcher : String → FetchOutcome) (ttl negTtl now : Int)
    (cache0 : List (String × Int × LiveGameRow)) (neg0 : List (String × Int))
    (eventIds : List String) (force : Bool) : BulkResult :=
  let ids := pyDedup (eventIds.filter (fun e => e != ""))
  let cache1 := if force then cache0.filter (fun c => !(ids.contains c.1)) else cache0
  let neg1 := if force then neg0.filter (fun c => !(ids.contains c.1)) else neg0
  let scan := ids.foldl (bulkScanStep ttl now force cache1 neg1) ([], [])
  let final := scan.2.foldl (bulkFetchStep fetcher negTtl now)
    { out := scan.1, cache := cache1, neg := neg1 }
  { out := final.out, cache := final.cache, neg := final.neg, fetched := scan.2 }
theorem lookupA_setA_self {κ α : Type} [BEq κ] [LawfulBEq κ]
    (l : List (κ × α)) (k : κ) (v : α) : lookupA (setA l k v) k = some v := by
  induction l with
  | nil => simp [setA, lookupA, List.find?]
  | cons kv rest ih =>
    by_cases he : (kv.1 == k) = true
    · simp [setA, he, lookupA, List.find?]
    · simp only [setA, he, if_neg Bool.false_ne_true]
      simpa [lookupA, List.find?, he] using ih

theorem lookupA_setA_ne {κ α : Type} [BEq κ] [LawfulBEq κ]
    (l : List (κ × α)) (k k' : κ) (v : α) (h : k' ≠ k) :
    lookupA (setA l k v) k' = lookupA l k' := by
  induction l with
  | nil =>
    simp only [setA, lookupA, List.find?]
    have : (k == k') = false := by simpa using fun e => h e.symm
    simp [this]
  | cons kv rest ih =>
    by_cases he : (kv.1 == k) = true
    · have hk : kv.1 = k := by simpa using he
      have h1 : (k == k') = false := by simpa using fun e => h e.symm
      simp [setA, he, lookupA, List.find?, h1, hk]
    · simp only [setA, he, if_neg Bool.false_ne_true]
      by_cases he' : (kv.1 == k') = true
      · simp [lookupA, List.find?, he']
      · simpa [lookupA, List.find?, he'] using ih

theorem pyDedupGo_spec (l : List String) :
    ∀ seen, (pyDedupGo seen l).Nodup ∧
      ∀ x, x ∈ pyDedupGo seen l ↔ (x ∈ l ∧ x ∉ seen) := by
  induction l with
  | nil => intro seen; simp [pyDedupGo]
  | cons y ys ih =>
    intro seen
    by_cases hc : seen.contains y
    · have hys := ih seen
      have hymem : y ∈ seen := by simpa using hc
      simp only [pyDedupGo, hc, if_pos]
      refine ⟨hys.1, fun x => ?_⟩
      rw [(hys.2 x)]
      constructor
      · rintro ⟨hx, hnx⟩
        exact ⟨List.mem_cons_of_mem _ hx, hnx⟩
      · rintro ⟨hx, hnx⟩
        rcases List.mem_cons.mp hx with h' | h'
        · exact absurd (h' ▸ hymem) hnx
        · exact ⟨h', hnx⟩
    · have hys := ih (y :: seen)
      have hymem : y ∉ seen := by simpa using hc
      simp only [pyDedupGo, hc, if_neg Bool.false_ne_true]
      constructor
      · rw [List.nodup_cons]
        refine ⟨fun hy => ?_, hys.1⟩
        have := (hys.2 y).mp hy
        exact this.2 (List.mem_cons_self _ _)
      · intro x
        rw [List.mem_cons, (hys.2 x)]
        constructor
        · rintro (h' | ⟨hx, hnx⟩)
          · exact ⟨h' ▸ List.mem_cons_self _ _, h' ▸ hymem⟩
          · exact ⟨List.mem_cons_of_mem _ hx,
              fun hs => hnx (List.mem_cons_of_mem _ hs)⟩
        · rintro ⟨hx, hnx⟩
          by_cases hxy : x = y
          · exact Or.inl hxy
          · rcases List.mem_cons.mp hx with h' | h'
            · exact absurd h' hxy
            · exact Or.inr ⟨h', by
                rw [List.mem_cons]
                rintro (h'' | h'')
                · exact hxy h''
                · exact hnx h''⟩

theorem pyDedup_nodup (l : List String) : (pyDedup l).Nodup :=
  (pyDedupGo_spec l []).1

theorem mem_pyDedup (l : List String) (x : String) : x ∈ pyDedup l ↔ x ∈ l := by
  have := (pyDedupGo_spec l []).2 x
  simpa [pyDedup] using this
/-- Per-id result of the scan loop: the cached value served, if any. -/
def scanServe (ttl now : Int) (force : Bool)
    (cache : List (String × Int × LiveGameRow)) (neg : List (String × Int))
    (eid : String) : Option LiveGameRow :=
  if force = false ∧ (lookupA neg eid).isSome ∧ now ≤ (lookupA neg eid).getD 0 then
    none
  else
    match lookupA cache eid with
    | some c => if force = false ∧ now - c.1 ≤ ttl then some c.2 else none
    | none => none

/-- Per-id result of the scan loop: whether the id is queued for fetching. -/
def scanFetches (ttl now : Int) (force : Bool)
    (cache : List (String × Int × LiveGameRow)) (neg : List (String × Int))
    (eid : String) : Bool :=
  if force = false ∧ (lookupA neg eid).isSome ∧ now ≤ (lookupA neg eid).getD 0 then
    false
  else
    match lookupA cache eid with
    | some c => if force = false ∧ now - c.1 ≤ ttl then false else true
    | none => true

theorem bulkScanStep_eq (ttl now : Int) (force : Bool)
    (cache : List (String × Int × LiveGameRow)) (neg : List (String × Int))
    (acc : List (String × LiveGameRow) × List String) (eid : String) :
    bulkScanStep ttl now force cache neg acc eid =
      match scanServe ttl now force cache neg eid,
          scanFetches ttl now force cache neg eid with
      | some lg, _ => (setA acc.1 eid lg, acc.2)
      | none, true => (acc.1, acc.2 ++ [eid])
      | none, false => acc := by
  unfold bulkScanStep scanServe scanFetches
  by_cases hneg : force = false ∧ (lookupA neg eid).isSome ∧
      now ≤ (lookupA neg eid).getD 0
  · rw [if_pos hneg, if_pos hneg, if_pos hneg]
  · rw [if_neg hneg, if_neg hneg, if_neg hneg]
    cases hc : lookupA cache eid with
    | none => rfl
    | some c =>
      dsimp only
      by_cases hfresh : force = false ∧ now - c.1 ≤ ttl
      · rw [if_pos hfresh, if_pos hfresh, if_pos hfresh]
      · rw [if_neg hfresh, if_neg hfresh, if_neg hfresh]

theorem scanServe_some_not_fetches (ttl now : Int) (force : Bool)
    (cache : List (String × Int × LiveGameRow)) (neg : List (String × Int))
    (eid : String) (lg : LiveGameRow)
    (h : scanServe ttl now force cache neg eid = some lg) :
    scanFetches ttl now force cache neg eid = false := by
  unfold scanServe at h
  unfold scanFetches
  by_cases hneg : force = false ∧ (lookupA neg eid).isSome ∧
      now ≤ (lookupA neg eid).getD 0
  · rw [if_pos hneg]
  · rw [if_neg hneg] at h
    rw [if_neg hneg]
    cases hc : lookupA cache eid with
    | none => rw [hc] at h; simp at h
    | some c =>
      rw [hc] at h
      dsimp only at h ⊢
      by_cases hfresh : force = false ∧ now - c.1 ≤ ttl
      · rw [if_pos hfresh]
      · rw [if_neg hfresh] at h; simp at h

theorem bulkScan_snd (ttl now : Int) (force : Bool)
    (cache : List (String × Int × LiveGameRow)) (neg : List (String × Int))
    (ids : List String) :
    ∀ acc, (ids.foldl (bulkScanStep ttl now force cache neg) acc).2
      = acc.2 ++ ids.filter (scanFetches ttl now force cache neg) := by
  induction ids with
  | nil => intro acc; simp
  | cons eid rest ih =>
    intro acc
    simp only [List.foldl_cons, List.filter_cons, bulkScanStep_eq]
    cases hs : scanServe ttl now force cache neg eid with
    | some lg =>
      rw [scanServe_some_not_fetches ttl now force cache neg eid lg hs]
      simp [ih]
    | none =>
      cases hf : scanFetches ttl now force cache neg eid with
      | true => simp [ih]
      | false => simp [ih]

theorem bulkScan_fst_lookup (ttl now : Int) (force : Bool)
    (cache : List (String × Int × LiveGameRow)) (neg : List (String × Int)) :
    ∀ (ids : List String) (acc : List (String × LiveGameRow) × List String)
      (eid : String), eid ∉ ids →
      lookupA (ids.foldl (bulkScanStep ttl now force cache neg) acc).1 eid
        = lookupA acc.1 eid := by
  intro ids
  induction ids with
  | nil => intro acc eid _; rfl
  | cons x rest ih =>
    intro acc eid hnot
    have hne : eid ≠ x := fun h => hnot (h ▸ List.mem_cons_self _ _)
    have hnr : eid ∉ rest := fun h => hnot (List.mem_cons_of_mem _ h)
    simp only [List.foldl_cons, bulkScanStep_eq]
    cases hs : scanServe ttl now force cache neg x with
    | some lg =>
      cases hf : scanFetches ttl now force cache neg x with
      | true =>
        dsimp only
        rw [ih _ eid hnr]
        exact lookupA_setA_ne acc.1 x eid lg hne
      | false =>
        dsimp only
        rw [ih _ eid hnr]
        exact lookupA_setA_ne acc.1 x eid lg hne
    | none =>
      cases hf : scanFetches ttl now force cache neg x with
      | true => dsimp only; rw [ih _ eid hnr]
      | false => dsimp only; rw [ih _ eid hnr]

theorem bulkScan_fst_at (ttl now : Int) (force : Bool)
    (cache : List (String × Int × LiveGameRow)) (neg : List (String × Int)) :
    ∀ (ids : List String) (acc : List (String × LiveGameRow) × List String)
      (eid : String), ids.Nodup → eid ∈ ids →
      lookupA (ids.foldl (bulkScanStep ttl now force cache neg) acc).1 eid
        = match scanServe ttl now force cache neg eid with
          | some lg => some lg
          | none => lookupA acc.1 eid := by
  intro ids
  induction ids with
  | nil => intro acc eid _ hmem; simp at hmem
  | cons x rest ih =>
    intro acc eid hnodup hmem
    rw [List.nodup_cons] at hnodup
    simp only [List.foldl_cons, bulkScanStep_eq]
    by_cases hx : eid = x
    · subst hx
      rw [bulkScan_fst_lookup ttl now force cache neg rest _ eid hnodup.1]
      cases hs : scanServe ttl now force cache neg eid with
      | some lg =>
        cases hf : scanFetches ttl now force cache neg eid with
        | true => dsimp only; exact lookupA_setA_self acc.1 eid lg
        | false => dsimp only; exact lookupA_setA_self acc.1 eid lg
      | none =>
        cases hf : scanFetches ttl now force cache neg eid with
        | true => dsimp only
        | false => dsimp only
    · rcases List.mem_cons.mp hmem with h' | h'
      · exact absurd h' hx
      · rw [ih _ eid hnodup.2 h']
        cases hs : scanServe ttl now force cache neg x with
        | some lg =>
          cases hf : scanFetches ttl now force cache neg x with
          | true => dsimp only; rw [lookupA_setA_ne acc.1 x eid lg hx]
          | false => dsimp only; rw [lookupA_setA_ne acc.1 x eid lg hx]
        | none =>
          cases hf : scanFetches ttl now force cache neg x with
          | true => dsimp only
          | false => dsimp only
theorem bulkFetchStep_lookup_ne (fetcher : String → FetchOutcome)
    (negTtl now : Int) (st : BulkState) (x eid : String) (hne : eid ≠ x) :
    lookupA (bulkFetchStep fetcher negTtl now st x).out eid = lookupA st.out eid ∧
    lookupA (bulkFetchStep fetcher negTtl now st x).cache eid = lookupA st.cache eid ∧
    lookupA (bulkFetchStep fetcher negTtl now st x).neg eid = lookupA st.neg eid := by
  unfold bulkFetchStep fetchLiveEvent
  cases hf : fetcher x with
  | success lg =>
    exact ⟨lookupA_setA_ne st.out x eid lg hne,
      lookupA_setA_ne st.cache x eid (now, lg) hne, rfl⟩
  | notFound =>
    exact ⟨rfl, rfl, lookupA_setA_ne st.neg x eid (now + negTtl) hne⟩
  | failure => exact ⟨rfl, rfl, rfl⟩

theorem bulkFetchFold_frame (fetcher : String → FetchOutcome) (negTtl now : Int) :
    ∀ (L : List String) (st : BulkState) (eid : String), eid ∉ L →
      lookupA (L.foldl (bulkFetchStep fetcher negTtl now) st).out eid
        = lookupA st.out eid ∧
      lookupA (L.foldl (bulkFetchStep fetcher negTtl now) st).cache eid
        = lookupA st.cache eid ∧
      lookupA (L.foldl (bulkFetchStep fetcher negTtl now) st).neg eid
        = lookupA st.neg eid := by
  intro L
  induction L with
  | nil => intro st eid _; exact ⟨rfl, rfl, rfl⟩
  | cons x rest ih =>
    intro st eid hnot
    have hne : eid ≠ x := fun h => hnot (h ▸ List.mem_cons_self _ _)
    have hnr : eid ∉ rest := fun h => hnot (List.mem_cons_of_mem _ h)
    simp only [List.foldl_cons]
    obtain ⟨h1, h2, h3⟩ := ih (bulkFetchStep fetcher negTtl now st x) eid hnr
    obtain ⟨g1, g2, g3⟩ := bulkFetchStep_lookup_ne fetcher negTtl now st x eid hne
    exact ⟨h1.trans g1, h2.trans g2, h3.trans g3⟩

theorem bulkFetchFold_at (fetcher : String → FetchOutcome) (negTtl now : Int) :
    ∀ (L : List String) (st : BulkState) (eid : String), L.Nodup → eid ∈ L →
      (lookupA (L.foldl (bulkFetchStep fetcher negTtl now) st).out eid
        = match fetcher eid with
          | .success lg => some lg
          | _ => lookupA st.out eid) ∧
      (lookupA (L.foldl (bulkFetchStep fetcher negTtl now) st).cache eid
        = match fetcher eid with
          | .success lg => some (now, lg)
          | _ => lookupA st.cache eid) ∧
      (lookupA (L.foldl (bulkFetchStep fetcher negTtl now) st).neg eid
        = match fetcher eid with
          | .notFound => some (now + negTtl)
          | _ => lookupA st.neg eid) := by
  intro L
  induction L with
  | nil => intro st eid _ hmem; simp at hmem
  | cons x rest ih =>
    intro st eid hnodup hmem
    rw [List.nodup_cons] at hnodup
    simp only [List.foldl_cons]
    by_cases hx : eid = x
    · subst hx
      obtain ⟨h1, h2, h3⟩ :=
        bulkFetchFold_frame fetcher negTtl now rest
          (bulkFetchStep fetcher negTtl now st eid) eid hnodup.1
      refine ⟨h1.trans ?_, h2.trans ?_, h3.trans ?_⟩ <;>
        · unfold bulkFetchStep fetchLiveEvent
          cases hf : fetcher eid with
          | success lg => simp [lookupA_setA_self]
          | notFound => simp [lookupA_setA_self]
          | failure => simp
    · rcases List.mem_cons.mp hmem with h' | h'
      · exact absurd h' hx
      · obtain ⟨h1, h2, h3⟩ := ih (bulkFetchStep fetcher negTtl now st x) eid
          hnodup.2 h'
        obtain ⟨g1, g2, g3⟩ := bulkFetchStep_lookup_ne fetcher negTtl now st x eid hx
        exact ⟨h1.trans (by cases hf : fetcher eid <;> simp [g1]),
          h2.trans (by cases hf : fetcher eid <;> simp [g2]),
          h3.trans (by cases hf : fetcher eid <;> simp [g3])⟩
theorem lookupA_filter_out {α : Type} (l : List (String × α)) (L : List String)
    (k : String) (hk : k ∈ L) :
    lookupA (l.filter (fun c => !(L.contains c.1))) k = none := by
  induction l with
  | nil => rfl
  | cons kv rest ih =>
    simp only [List.filter_cons]
    by_cases hc : L.contains kv.1 = true
    · simp only [hc, Bool.not_true, if_neg Bool.false_ne_true]
      exact ih
    · have hc' : (L.contains kv.1) = false := by
        cases h : L.contains kv.1 with
        | true => exact absurd h hc
        | false => rfl
      simp only [hc', Bool.not_false, if_pos rfl]
      have hkv : kv.1 ∉ L := by simpa using hc'
      have hne : (kv.1 == k) = false := by
        have : kv.1 ≠ k := fun e => hkv (e ▸ hk)
        simpa using this
      simpa [lookupA, List.find?, hne] using ih
/-- C7: `bulk_fetch_live_events` cache discipline, per requested event id.
With `force=false`: (1) an id whose negative-cache entry has not expired
(`now ≤ expiry`) is not fetched and yields no result; (2) an id whose
positive cache entry is fresher than the TTL is served from cache with no
outbound fetch; (3) an id whose positive entry is staler than the TTL is
fetched, and a successful fetch repopulates both the result map and the
positive cache.  With `force=true` the positive and negative entries for
the requested ids are cleared first and every requested id is fetched
fresh, the caches afterwards reflecting only the fresh outcome. -/
theorem c7_live_cache (fetcher : String → FetchOutcome) (ttl negTtl now : Int)
    (cache0 : List (String × Int × LiveGameRow)) (neg0 : List (String × Int))
    (eventIds : List String) (force : Bool) (eid : String) (res : BulkResult)
    (hres : res = bulkFetchLiveEvents fetcher ttl negTtl now cache0 neg0 eventIds force)
    (hmem : eid ∈ eventIds) (hne : eid ≠ "") :
    (∀ exp, force = false → lookupA neg0 eid = some exp → now ≤ exp →
      eid ∉ res.fetched ∧ lookupA res.out eid = none) ∧
    (∀ t lg, force = false →
      ¬((lookupA neg0 eid).isSome ∧ now ≤ (lookupA neg0 eid).getD 0) →
      lookupA cache0 eid = some (t, lg) → now - t ≤ ttl →
      eid ∉ res.fetched ∧ lookupA res.out eid = some lg) ∧
    (∀ t lg, force = false →
      ¬((lookupA neg0 eid).isSome ∧ now ≤ (lookupA neg0 eid).getD 0) →
      lookupA cache0 eid = some (t, lg) → ttl < now - t →
      eid ∈ res.fetched ∧
      ∀ lg', fetcher eid = .success lg' →
        lookupA res.out eid = some lg' ∧ lookupA res.cache eid = some (now, lg')) ∧
    (force = true →
      eid ∈ res.fetched ∧
      lookupA res.cache eid = (match fetcher eid with
        | .success lg' => some (now, lg')
        | _ => none) ∧
      lookupA res.neg eid = (match fetcher eid with
        | .notFound => some (now + negTtl)
        | _ => none) ∧
      ∀ lg', fetcher eid = .success lg' → lookupA res.out eid = some lg') := by
  obtain ⟨ids, hids⟩ : ∃ l, l = pyDedup (eventIds.filter (fun e => e != "")) :=
    ⟨_, rfl⟩
  obtain ⟨cache1, hcache1⟩ : ∃ c,
      c = (if force then cache0.filter (fun c => !(ids.contains c.1)) else cache0) :=
    ⟨_, rfl⟩
  obtain ⟨neg1, hneg1⟩ : ∃ n,
      n = (if force then neg0.filter (fun c => !(ids.contains c.1)) else neg0) :=
    ⟨_, rfl⟩
  obtain ⟨scan, hscan⟩ : ∃ s,
      s = ids.foldl (bulkScanStep ttl now force cache1 neg1) ([], []) := ⟨_, rfl⟩
  obtain ⟨final, hfinal⟩ : ∃ f, f = scan.2.foldl (bulkFetchStep fetcher negTtl now)
      { out := scan.1, cache := cache1, neg := neg1 } := ⟨_, rfl⟩
  have hre : res = ⟨final.out, final.cache, final.neg, scan.2⟩ := by
    rw [hres, hfinal, hscan, hneg1, hcache1, hids]; rfl
  subst hre
  dsimp only
  have hmemids : eid ∈ ids := by
    rw [hids]
    exact (mem_pyDedup _ _).mpr
      (List.mem_filter.mpr ⟨hmem, by simpa using hne⟩)
  have hnod : ids.Nodup := by rw [hids]; exact pyDedup_nodup _
  have hsnd : scan.2 = ids.filter (scanFetches ttl now force cache1 neg1) := by
    rw [hscan]; simpa using bulkScan_snd ttl now force cache1 neg1 ids ([], [])
  have hfn : scan.2.Nodup := by rw [hsnd]; exact hnod.filter _
  have hfmem : eid ∈ scan.2 ↔ scanFetches ttl now force cache1 neg1 eid = true := by
    rw [hsnd, List.mem_filter]
    exact ⟨fun h => h.2, fun h => ⟨hmemids, h⟩⟩
  refine ⟨?_, ?_, ?_, ?_⟩
  · -- (1) unexpired negative-cache entry: skipped, no result
    intro exp hforce hnegeq hnow
    have hc1 : cache1 = cache0 := by rw [hcache1, hforce]; rfl
    have hn1 : neg1 = neg0 := by rw [hneg1, hforce]; rfl
    have hcond : force = false ∧ (lookupA neg1 eid).isSome ∧
        now ≤ (lookupA neg1 eid).getD 0 := by
      rw [hn1, hnegeq]
      exact ⟨hforce, rfl, by simpa using hnow⟩
    have hsf : scanFetches ttl now force cache1 neg1 eid = false := by
      unfold scanFetches
      rw [if_pos hcond]
    have hss : scanServe ttl now force cache1 neg1 eid = none := by
      unfold scanServe
      rw [if_pos hcond]
    have hnf : eid ∉ scan.2 := by
      rw [hfmem, hsf]; exact Bool.false_ne_true
    refine ⟨hnf, ?_⟩
    have hframe := (bulkFetchFold_frame fetcher negTtl now scan.2
      { out := scan.1, cache := cache1, neg := neg1 } eid hnf).1
    rw [hfinal]
    rw [hframe]
    have hat := bulkScan_fst_at ttl now force cache1 neg1 ids ([], []) eid hnod hmemids
    rw [hss] at hat
    rw [hscan]
    exact hat
  · -- (2) fresh positive cache entry: served from cache, no fetch
    intro t lg hforce hnotneg hcached hfresh
    have hc1 : cache1 = cache0 := by rw [hcache1, hforce]; rfl
    have hn1 : neg1 = neg0 := by rw [hneg1, hforce]; rfl
    have hncond : ¬(force = false ∧ (lookupA neg1 eid).isSome ∧
        now ≤ (lookupA neg1 eid).getD 0) := by
      rw [hn1]; rintro ⟨_, hp⟩; exact hnotneg hp
    have hss : scanServe ttl now force cache1 neg1 eid = some lg := by
      unfold scanServe
      rw [if_neg hncond, hc1, hcached]
      dsimp only
      rw [if_pos ⟨hforce, hfresh⟩]
    have hsf : scanFetches ttl now force cache1 neg1 eid = false :=
      scanServe_some_not_fetches ttl now force cache1 neg1 eid lg hss
    have hnf : eid ∉ scan.2 := by
      rw [hfmem, hsf]; exact Bool.false_ne_true
    refine ⟨hnf, ?_⟩
    have hframe := (bulkFetchFold_frame fetcher negTtl now scan.2
      { out := scan.1, cache := cache1, neg := neg1 } eid hnf).1
    rw [hfinal, hframe]
    have hat := bulkScan_fst_at ttl now force cache1 neg1 ids ([], []) eid hnod hmemids
    rw [hss] at hat
    rw [hscan]
    exact hat
  · -- (3) stale positive cache entry: fetched, success repopulates out and cache
    intro t lg hforce hnotneg hcached hstale
    have hc1 : cache1 = cache0 := by rw [hcache1, hforce]; rfl
    have hn1 : neg1 = neg0 := by rw [hneg1, hforce]; rfl
    have hncond : ¬(force = false ∧ (lookupA neg1 eid).isSome ∧
        now ≤ (lookupA neg1 eid).getD 0) := by
      rw [hn1]; rintro ⟨_, hp⟩; exact hnotneg hp
    have hnfresh : ¬(force = false ∧ now - t ≤ ttl) := by
      rintro ⟨_, hp⟩; exact absurd hp (not_le.mpr hstale)
    have hsf : scanFetches ttl now force cache1 neg1 eid = true := by
      unfold scanFetches
      rw [if_neg hncond, hc1, hcached]
      dsimp only
      rw [if_neg hnfresh]
    have hinf : eid ∈ scan.2 := hfmem.mpr hsf
    refine ⟨hinf, ?_⟩
    intro lg' hsucc
    obtain ⟨h1, h2, _⟩ := bulkFetchFold_at fetcher negTtl now scan.2
      { out := scan.1, cache := cache1, neg := neg1 } eid hfn hinf
    rw [hsucc] at h1 h2
    rw [hfinal]
    exact ⟨h1, h2⟩
  · -- (4) force: caches cleared for requested ids, every id fetched fresh
    intro hforce
    have hsf : scanFetches ttl now force cache1 neg1 eid = true := by
      unfold scanFetches
      rw [hforce]
      have hcond : ¬(true = false ∧ (lookupA neg1 eid).isSome ∧
          now ≤ (lookupA neg1 eid).getD 0) := by
        rintro ⟨hp, _⟩; exact absurd hp (by simp)
      rw [if_neg hcond]
      cases hc : lookupA cache1 eid with
      | none => rfl
      | some c =>
        dsimp only
        rw [if_neg (by rintro ⟨hp, _⟩; exact absurd hp (by simp))]
    have hinf : eid ∈ scan.2 := hfmem.mpr hsf
    have hcc : lookupA cache1 eid = none := by
      rw [hcache1, hforce]
      exact lookupA_filter_out cache0 ids eid hmemids
    have hnn : lookupA neg1 eid = none := by
      rw [hneg1, hforce]
      exact lookupA_filter_out neg0 ids eid hmemids
    obtain ⟨h1, h2, h3⟩ := bulkFetchFold_at fetcher negTtl now scan.2
      { out := scan.1, cache := cache1, neg := neg1 } eid hfn hinf
    refine ⟨hinf, ?_, ?_, ?_⟩
    · rw [hfinal]
      cases hf : fetcher eid with
      | success lg' => rw [hf] at h2; simpa using h2
      | notFound =>
        rw [hf] at h2
        simpa [hcc] using h2
      | failure =>
        rw [hf] at h2
        simpa [hcc] using h2
    · rw [hfinal]
      cases hf : fetcher eid with
      | success lg' =>
        rw [hf] at h3
        simpa [hnn] using h3
      | notFound => rw [hf] at h3; simpa using h3
      | failure =>
        rw [hf] at h3
        simpa [hnn] using h3
    · intro lg' hsucc
      rw [hsucc] at h1
      rw [hfinal]
      simpa using h1
def c7wLgE2 : LiveGameRow := ⟨"E2", "in", some 14, some 7⟩

def c7wLgE3old : LiveGameRow := ⟨"E3", "in", some 3, some 0⟩

def c7wLgE3new : LiveGameRow := ⟨"E3", "post", some 24, some 20⟩

def c7wLgE4 : LiveGameRow := ⟨"E4", "in", some 10, some 10⟩

def c7wFetcher (e : String) : FetchOutcome :=
  if e = "E3" then .success c7wLgE3new
  else if e = "E4" then .success c7wLgE4
  else .failure

def c7wCache : List (String × Int × LiveGameRow) :=
  [("E2", (950, c7wLgE2)), ("E3", (100, c7wLgE3old)), ("E4", (990, c7wLgE4))]

def c7wNeg : List (String × Int) := [("E1", 1200)]

def c7wRes : BulkResult :=
  bulkFetchLiveEvents c7wFetcher 60 300 1000 c7wCache c7wNeg ["E1", "E2", "E3"] false

def c7wResF : BulkResult :=
  bulkFetchLiveEvents c7wFetcher 60 300 1000 c7wCache c7wNeg ["E4"] true

theorem c7_witness :
    ("E1" ∉ c7wRes.fetched ∧ lookupA c7wRes.out "E1" = none) ∧
    ("E2" ∉ c7wRes.fetched ∧ lookupA c7wRes.out "E2" = some c7wLgE2) ∧
    ("E3" ∈ c7wRes.fetched ∧ lookupA c7wRes.out "E3" = some c7wLgE3new ∧
      lookupA c7wRes.cache "E3" = some (1000, c7wLgE3new)) ∧
    ("E4" ∈ c7wResF.fetched ∧ lookupA c7wResF.cache "E4" = some (1000, c7wLgE4) ∧
      lookupA c7wResF.neg "E4" = none ∧ lookupA c7wResF.out "E4" = some c7wLgE4) := by
  have hA := c7_live_cache c7wFetcher 60 300 1000 c7wCache c7wNeg
    ["E1", "E2", "E3"] false "E1" c7wRes rfl (by decide) (by decide)
  have hB := c7_live_cache c7wFetcher 60 300 1000 c7wCache c7wNeg
    ["E1", "E2", "E3"] false "E2" c7wRes rfl (by decide) (by decide)
  have hC := c7_live_cache c7wFetcher 60 300 1000 c7wCache c7wNeg
    ["E1", "E2", "E3"] false "E3" c7wRes rfl (by decide) (by decide)
  have hD := c7_live_cache c7wFetcher 60 300 1000 c7wCache c7wNeg
    ["E4"] true "E4" c7wResF rfl (by decide) (by decide)
  refine ⟨hA.1 1200 rfl (by decide) (by decide), ?_, ?_, ?_⟩
  · exact hB.2.1 950 c7wLgE2 rfl (by decide) (by decide) (by decide)
  · obtain ⟨hin, hf⟩ := hC.2.2.1 100 c7wLgE3old rfl (by decide) (by decide) (by decide)
    obtain ⟨h1, h2⟩ := hf c7wLgE3new (by decide)
    exact ⟨hin, h1, h2⟩
  · obtain ⟨hin, hcache, hneg, hout⟩ := hD.2.2.2 rfl
    refine ⟨hin, ?_, ?_, hout c7wLgE4 (by decide)⟩
    · rw [hcache]; decide
    · rw [hneg]; decide
/-! ## ESPN scoreboard parsing (`app/services/nfl/espn.py`) -/

/-- One entry of a competition's `competitors` array.  The nested
`c["team"]["abbreviation"]` access (with `or {}` / `or ""` defaults) is
flattened to an optional abbreviation; `homeAway` is the raw
`c.get("homeAway")` value. -/
structure RawCompetitor where
  abbreviation : Option String
  homeAway : Option String
  deriving DecidableEq, Repr

/-- One entry of an event's `competitions` array. -/
structure RawCompetition where
  date : Option String
  competitors : List RawCompetitor
  deriving DecidableEq, Repr

/-- One scoreboard event. -/
structure RawEvent where
  id : Option String
  date : Option String
  competitions : List RawCompetition
  deriving DecidableEq, Repr

/-- Python `a or b` on optional strings (`None` and `""` are falsy). -/
def pyOr (a b : Option String) : Option String :=
  if pyTruthy a then a else b

/-- The Z-suffix normalization of `_parse_iso_utc`:
`if s.endswith("Z"): s = s[:-1] + "+00:00"`. -/
def zNormalize (s : String) : String :=
  if s.data.getLast? = some 'Z' then String.mk (s.data.dropLast ++ "+00:00".data)
  else s

/-- `_parse_iso_utc` (espn.py lines 181-192), with `datetime.fromisoformat`
abstracted as an oracle `fromIso` returning a UTC epoch on success and
`none` on a raised `ValueError`.  On ANY failure the function returns
`datetime.now(timezone.utc)` -- it never raises, so a bad timestamp never
reaches the event loop's `except` handler. -/
def parseIsoUtc (fromIso : String → Option Int) (now : Int) (s : String) : Int :=
  match fromIso (zNormalize s) with
  | some t => t
  | none => now

/-- The per-competitor pass of the event loop (espn.py lines 160-169):
`abbr = (team.get("abbreviation") or "").upper()`, assigned to the home or
away slot when `homeAway` matches (later competitors overwrite earlier). -/
def competitorStep (acc : Option String × Option String) (c : RawCompetitor) :
    Option String × Option String :=
  let abbr := strUpper ((c.abbreviation.getD ""))
  if c.homeAway = some "home" then (some abbr, acc.2)
  else if c.homeAway = some "away" then (acc.1, some abbr)
  else acc

/-- One iteration of the event loop of `get_week_schedule` (espn.py lines
149-176): skip when there is no competition, no truthy date string, or no
truthy home/away abbreviation; otherwise build a `ProviderGame` whose
start time comes from `_parse_iso_utc`. -/
def parseScoreboardEvent (fromIso : String → Option Int) (now : Int)
    (ev : RawEvent) : Option ProviderGame :=
  match ev.competitions with
  | [] => none
  | comp :: _ =>
    let dateStr := pyOr comp.date ev.date
    if pyTruthy dateStr = false then none
    else
      let dt := parseIsoUtc fromIso now (dateStr.getD "")
      let ha := comp.competitors.foldl competitorStep (none, none)
      if pyTruthy ha.1 = false ∨ pyTruthy ha.2 = false then none
      else some { homeAbbr := (ha.1).getD "", awayAbbr := (ha.2).getD ""
                  startTime := dt
                  providerGameId := if pyTruthy ev.id then ev.id else none }

/-- The event loop of `get_week_schedule` over an already-fetched `events`
array: each event is processed independently and contributes at most one
`ProviderGame`. -/
def getWeekScheduleEvents (fromIso : String → Option Int) (now : Int)
    (events : List RawEvent) : List ProviderGame :=
  events.filterMap (parseScoreboardEvent fromIso now)
/-- `datetime.fromisoformat` oracle for the fixtures: succeeds exactly on
two well-formed normalized timestamps. -/
def c8FromIso (s : String) : Option Int :=
  if s = "2024-09-08T17:00:00+00:00" then some 1725814800
  else if s = "2024-09-08T20:25:00+00:00" then some 1725827100
  else none

def c8Ev1 : RawEvent :=
  { id := some "401", date := none
    competitions := [{ date := some "2024-09-08T17:00:00Z"
                       competitors := [{ abbreviation := some "kc", homeAway := some "home" },
                                       { abbreviation := some "bal", homeAway := some "away" }] }] }

/-- The competition of the bad-timestamp event. -/
def c8BadComp : RawCompetition :=
  { date := some "NOT-A-DATE"
    competitors := [{ abbreviation := some "buf", homeAway := some "home" },
                    { abbreviation := some "nyj", homeAway := some "away" }] }

/-- An event whose ISO-8601 date string fails to parse. -/
def c8EvBad : RawEvent := { id := some "402", date := none, competitions := [c8BadComp] }

def c8Ev3 : RawEvent :=
  { id := some "403", date := none
    competitions := [{ date := some "2024-09-08T20:25:00Z"
                       competitors := [{ abbreviation := some "dal", homeAway := some "home" },
                                       { abbreviation := some "phi", homeAway := some "away" }] }] }

/-- An event with an empty `competitions` array (a genuinely skipped record). -/
def c8EvNoComp : RawEvent := { id := some "404", date := some "2024-09-08T17:00:00Z", competitions := [] }

/-- C8 counterexample: an event whose ISO-8601 timestamp fails to parse is
NOT skipped.  `_parse_iso_utc` swallows the error and falls back to
`datetime.now(timezone.utc)`, so the event is returned with the current
time as its start time: the batch of three events (the middle one with
unparseable date "NOT-A-DATE") yields three games, not two. -/
theorem c8_counterexample :
    c8FromIso (zNormalize "NOT-A-DATE") = none ∧
    getWeekScheduleEvents c8FromIso 999 [c8Ev1, c8EvBad, c8Ev3] =
      [{ homeAbbr := "KC", awayAbbr := "BAL", startTime := 1725814800, providerGameId := some "401" },
       { homeAbbr := "BUF", awayAbbr := "NYJ", startTime := 999, providerGameId := some "402" },
       { homeAbbr := "DAL", awayAbbr := "PHI", startTime := 1725827100, providerGameId := some "403" }] := by
  constructor
  · decide
  · decide
/-- C8 (amended): in `get_week_schedule`'s event loop each event is handled
independently: (a) a skipped event (one yielding no `ProviderGame`: empty
`competitions`, no truthy date string, or missing home/away abbreviation)
removes only itself -- the events before and after it are still processed
and returned; (b) whether an event is skipped never depends on the
timestamp parser, because `_parse_iso_utc` cannot raise; (c) in particular
an event whose ISO-8601 timestamp fails to parse is NOT skipped: if it is
otherwise well-formed it is returned with `datetime.now(timezone.utc)` as
its start time. -/
theorem c8_event_skip (fromIso : String → Option Int) (now : Int)
    (pre post : List RawEvent) (ev : RawEvent) :
    (parseScoreboardEvent fromIso now ev = none →
      getWeekScheduleEvents fromIso now (pre ++ ev :: post)
        = getWeekScheduleEvents fromIso now pre
          ++ getWeekScheduleEvents fromIso now post) ∧
    (∀ (fromIso' : String → Option Int) (now' : Int),
      (parseScoreboardEvent fromIso now ev).isSome
        = (parseScoreboardEvent fromIso' now' ev).isSome) ∧
    (∀ comp rest, ev.competitions = comp :: rest →
      pyTruthy (pyOr comp.date ev.date) = true →
      fromIso (zNormalize ((pyOr comp.date ev.date).getD "")) = none →
      ∀ g, parseScoreboardEvent fromIso now ev = some g → g.startTime = now) := by
  refine ⟨?_, ?_, ?_⟩
  · intro h
    simp [getWeekScheduleEvents, List.filterMap_append, List.filterMap_cons, h]
  · intro fromIso' now'
    unfold parseScoreboardEvent
    cases hc : ev.competitions with
    | nil => rfl
    | cons comp rest =>
      dsimp only
      by_cases hd : pyTruthy (pyOr comp.date ev.date) = false
      · rw [if_pos hd, if_pos hd]
      · rw [if_neg hd, if_neg hd]
        by_cases hha : pyTruthy (comp.competitors.foldl competitorStep (none, none)).1 = false
            ∨ pyTruthy (comp.competitors.foldl competitorStep (none, none)).2 = false
        · rw [if_pos hha, if_pos hha]
        · rw [if_neg hha, if_neg hha]
          rfl
  · intro comp rest hcomp hdate hiso g hg
    unfold parseScoreboardEvent at hg
    rw [hcomp] at hg
    dsimp only at hg
    rw [hdate] at hg
    rw [if_neg (by simp)] at hg
    by_cases hha : pyTruthy (comp.competitors.foldl competitorStep (none, none)).1 = false
        ∨ pyTruthy (comp.competitors.foldl competitorStep (none, none)).2 = false
    · rw [if_pos hha] at hg
      exact absurd hg (by simp)
    · rw [if_neg hha] at hg
      have hgv := (Option.some.injEq _ _).mp hg
      have : g.startTime = parseIsoUtc fromIso now ((pyOr comp.date ev.date).getD "") := by
        rw [← hgv]
      rw [this]
      unfold parseIsoUtc
      rw [hiso]
theorem c8_witness :
    (getWeekScheduleEvents c8FromIso 999 ([c8Ev1] ++ c8EvNoComp :: [c8Ev3])
      = getWeekScheduleEvents c8FromIso 999 [c8Ev1]
        ++ getWeekScheduleEvents c8FromIso 999 [c8Ev3]) ∧
    ((parseScoreboardEvent c8FromIso 999 c8EvBad).isSome
      = (parseScoreboardEvent (fun _ => none) 0 c8EvBad).isSome) ∧
    (∀ g, parseScoreboardEvent c8FromIso 999 c8EvBad = some g → g.startTime = 999) := by
  have h1 := c8_event_skip c8FromIso 999 [c8Ev1] [c8Ev3] c8EvNoComp
  have h2 := c8_event_skip c8FromIso 999 [] [] c8EvBad
  exact ⟨h1.1 (by decide), h2.2.1 (fun _ => none) 0,
    h2.2.2 c8BadComp [] rfl (by decide) (by decide)⟩
/-! ## Saving picks (`app/routers/picks.py`, `picks_save`)

The session from `get_db` uses `autoflush=False` and is closed without a
commit when a handler returns early, so any staged (uncommitted) ORM
changes are discarded; `db.commit()` is the only persistence point, and an
`IntegrityError` there is followed by `db.rollback()`.  The embedding
therefore returns the original `DB` on every early-return and on rollback,
and installs the staged rows only on a successful commit.  The
authentication preamble (login redirect, forced password change) is
elided: it returns before anything is staged. -/

/-- `str.startswith(p)` (kernel-computable). -/
def strStartsWith (p s : String) : Bool := s.data.take p.data.length == p.data

/-- `key.split("_", 1)[1]`: everything after the first underscore
(kernel-computable; total because callers guard with a `"pick_"` prefix
check, under which an underscore is always present). -/
def afterFirstUnderscore (s : String) : String :=
  String.mk ((s.data.dropWhile (fun c => !(c == '_'))).drop 1)

/-- Value of an ASCII decimal digit. -/
def digitVal (c : Char) : Option Nat :=
  if '0' ≤ c ∧ c ≤ '9' then some (c.toNat - '0'.toNat) else none

/-- Digits of a Python integer literal after the first digit: single
underscores are allowed between digits only. -/
def parseDigitsAux : Nat → List Char → Option Nat
  | acc, [] => some acc
  | acc, '_' :: c :: rest =>
    match digitVal c with
    | some d => parseDigitsAux (acc * 10 + d) rest
    | none => none
  | acc, c :: rest =>
    match digitVal c with
    | some d => parseDigitsAux (acc * 10 + d) rest
    | none => none

/-- An unsigned Python integer literal: at least one digit, starting with a
digit. -/
def parsePyIntCore (l : List Char) : Option Nat :=
  match l with
  | [] => none
  | c :: rest =>
    match digitVal c with
    | some d => parseDigitsAux d rest
    | none => none

/-- Python `int(s)` on a string (`None` models a raised `ValueError`):
surrounding whitespace is stripped, an optional single `+`/`-` sign is
followed by ASCII digits with single underscores permitted between digits.
(Non-ASCII digits accepted by CPython are out of scope for this
application's form data.) -/
def parsePyInt (s : String) : Option Int :=
  match (strTrim s).data with
  | '+' :: rest => (parsePyIntCore rest).map (fun n => (n : Int))
  | '-' :: rest => (parsePyIntCore rest).map (fun n => -(n : Int))
  | l => (parsePyIntCore l).map (fun n => (n : Int))

/-- The form scan of `picks_save` (picks.py lines 329-339): for each
`pick_<gid>` field parse both numbers with `int()`, skipping the field on
a parse failure; `picks_posted[gid] = tid` (dict overwrite) and
`game_ids.append(gid)`. -/
def collectPicks (form : List (String × String)) : List (Int × Int) × List Int :=
  form.foldl (fun acc kv =>
    if strStartsWith "pick_" kv.1 then
      match parsePyInt (afterFirstUnderscore kv.1), parsePyInt kv.2 with
      | some gid, some tid => (setA acc.1 gid tid, acc.2 ++ [gid])
      | _, _ => acc
    else acc) ([], [])

/-- One iteration of the upsert loop (picks.py lines 356-367): the chosen
team must be one of the game's two teams; an existing `(user, game)` pick
row is mutated in place, otherwise a new row is staged with `db.add`.  The
accumulator carries (current pick rows, rows added this request). -/
def pickUpsertStep (db : DB) (userId : Nat) (picksValid : List (Int × Int))
    (acc : List PickRow × List PickRow) (g : Game) : List PickRow × List PickRow :=
  match lookupA picksValid ((g.id : Int)) with
  | none => acc
  | some tid =>
    if tid == (g.homeTeamId : Int) || tid == (g.awayTeamId : Int) then
      if db.picks.any (fun p => p.userId == userId && p.gameId == g.id) then
        (replaceFirst (fun p => p.userId == userId && p.gameId == g.id)
          ⟨userId, g.id, tid.toNat⟩ acc.1, acc.2)
      else (acc.1, acc.2 ++ [⟨userId, g.id, tid.toNat⟩])
    else acc

/-- Tiebreaker staging (picks.py lines 379-385): update the user's
existing row for the week, else stage a new one. -/
def stageTiebreaker (db : DB) (userId weekId : Nat) (v : Int) :
    List TieBreakerRow :=
  if db.tiebreakers.any (fun t => t.userId == userId && t.weekId == weekId) then
    replaceFirst (fun t => t.userId == userId && t.weekId == weekId)
      ⟨userId, weekId, v⟩ db.tiebreakers
  else db.tiebreakers ++ [⟨userId, weekId, v⟩]

/-- Whether a key list contains a duplicate. -/
def hasDupKeys {κ : Type} [DecidableEq κ] : List κ → Bool
  | [] => false
  | k :: rest => rest.contains k || hasDupKeys rest

/-- `UniqueConstraint("user_id", "game_id")` on `picks`
(app/models/pick.py). -/
def picksOk (l : List PickRow) : Bool :=
  !hasDupKeys (l.map (fun p => (p.userId, p.gameId)))

/-- `UniqueConstraint("week_id", "guess_points")` and
`UniqueConstraint("user_id", "week_id")` on `tiebreakers`
(app/models/tiebreaker.py lines 13-16). -/
def tbsOk (l : List TieBreakerRow) : Bool :=
  !hasDupKeys (l.map (fun t => (t.weekId, t.guessPoints))) &&
  !hasDupKeys (l.map (fun t => (t.userId, t.weekId)))

/-- `db.commit()` (picks.py lines 387-402): the commit succeeds iff the
staged rows satisfy the tables' unique constraints; an `IntegrityError`
triggers `db.rollback()` and the `err=tb_unique` redirect. -/
def commitPicksSave (db : DB) (stagedPicks : List PickRow)
    (stagedTbs : List TieBreakerRow) : String × DB :=
  if picksOk stagedPicks && tbsOk stagedTbs then
    ("ok", { db with picks := stagedPicks, tiebreakers := stagedTbs })
  else ("tb_unique", db)

/-- `picks_save` (picks.py lines 308-404), returning the redirect's
outcome (`err`/`ok` query value) and the persisted database. -/
def picksSave (db : DB) (userId weekId : Nat) (now : Int)
    (form : List (String × String)) : String × DB :=
  match db.weeks.find? (fun w => w.id == weekId) with
  | none => ("noweek", db)
  | some week =>
    if weekIsLocked week now then ("locked", db)
    else
      let collected := collectPicks form
      let games := if collected.2.isEmpty then []
        else db.games.filter (fun g =>
          collected.2.contains ((g.id : Int)) && g.weekId == week.id)
      let picksValid := collected.1.filter (fun kv =>
        games.any (fun g => ((g.id : Int) == kv.1)))
      let staged := games.foldl (pickUpsertStep db userId picksValid)
        (db.picks, [])
      let stagedPicks := staged.1 ++ staged.2
      match lookupA form "tiebreaker" with
      | some raw =>
        if strTrim raw != "" then
          match parsePyInt (strTrim raw) with
          | none => ("tb_invalid", db)
          | some v =>
            if v < 0 then ("tb_invalid", db)
            else commitPicksSave db stagedPicks (stageTiebreaker db userId week.id v)
        else commitPicksSave db stagedPicks db.tiebreakers
      | none => commitPicksSave db stagedPicks db.tiebreakers
theorem replaceFirst_mem_of_not_pred {α : Type} (p : α → Bool) (x' a : α)
    (l : List α) (ha : a ∈ l) (hp : p a = false) :
    a ∈ replaceFirst p x' l := by
  induction l with
  | nil => cases ha
  | cons x rest ih =>
    simp only [replaceFirst]
    by_cases hx : p x = true
    · rw [if_pos hx]
      rcases List.mem_cons.mp ha with h | h
      · subst h; rw [hp] at hx; cases hx
      · exact List.mem_cons_of_mem _ h
    · rw [if_neg hx]
      rcases List.mem_cons.mp ha with h | h
      · exact h ▸ List.mem_cons_self _ _
      · exact List.mem_cons_of_mem _ (ih h)

theorem replaceFirst_mem_self {α : Type} (p : α → Bool) (x' : α) (l : List α)
    (h : l.any p = true) : x' ∈ replaceFirst p x' l := by
  induction l with
  | nil => simp at h
  | cons x rest ih =>
    simp only [replaceFirst]
    by_cases hx : p x = true
    · rw [if_pos hx]; exact List.mem_cons_self _ _
    · rw [if_neg hx]
      have hr : rest.any p = true := by
        rcases List.any_eq_true.mp h with ⟨a, ha, hpa⟩
        rcases List.mem_cons.mp ha with h' | h'
        · subst h'; exact absurd hpa hx
        · exact List.any_eq_true.mpr ⟨a, h', hpa⟩
      exact List.mem_cons_of_mem _ (ih hr)

theorem hasDupKeys_eq_false_iff {κ : Type} [DecidableEq κ] (l : List κ) :
    hasDupKeys l = false ↔ l.Nodup := by
  induction l with
  | nil => simp [hasDupKeys]
  | cons k rest ih =>
    simp [hasDupKeys, List.nodup_cons, ih, Bool.or_eq_false_iff]
/-- C9: within a week two users may not hold the identical tiebreaker
guess.  The `(week_id, guess_points)` unique constraint (`tbsOk`) makes
the commit fail whenever the request stages, for an unlocked week, a valid
guess `v` already held by a different user's tiebreaker row for the same
week; the whole attempted write is rolled back -- the resulting database
is exactly the pre-request one, so neither the staged picks nor the staged
tiebreaker persist -- and the caller receives the dedicated `tb_unique`
redirect rather than a generic or fatal error. -/
theorem c9_tb_unique_rollback (db : DB) (userId weekId : Nat) (now : Int)
    (form : List (String × String)) (week : WeekRow) (raw : String) (v : Int)
    (other : TieBreakerRow)
    (hweek : db.weeks.find? (fun w => w.id == weekId) = some week)
    (hlock : weekIsLocked week now = false)
    (htb : lookupA form "tiebreaker" = some raw)
    (htrim : strTrim raw ≠ "")
    (hparse : parsePyInt (strTrim raw) = some v)
    (hpos : ¬(v < 0))
    (hother : other ∈ db.tiebreakers) (hotheru : other.userId ≠ userId)
    (hotherw : other.weekId = week.id) (hotherg : other.guessPoints = v) :
    picksSave db userId weekId now form = ("tb_unique", db) := by
  have htrimb : (strTrim raw != "") = true := by simpa using htrim
  have hdup : hasDupKeys ((stageTiebreaker db userId week.id v).map
      (fun t => (t.weekId, t.guessPoints))) = true := by
    have hourmem : (⟨userId, week.id, v⟩ : TieBreakerRow) ∈
        stageTiebreaker db userId week.id v := by
      unfold stageTiebreaker
      by_cases hany : db.tiebreakers.any
          (fun t => t.userId == userId && t.weekId == week.id) = true
      · rw [if_pos hany]
        exact replaceFirst_mem_self _ _ _ hany
      · rw [if_neg hany]
        exact List.mem_append_right _ (List.mem_singleton.mpr rfl)
    have hothermem : other ∈ stageTiebreaker db userId week.id v := by
      unfold stageTiebreaker
      by_cases hany : db.tiebreakers.any
          (fun t => t.userId == userId && t.weekId == week.id) = true
      · rw [if_pos hany]
        refine replaceFirst_mem_of_not_pred _ _ _ _ hother ?_
        have hne : (other.userId == userId) = false := by simpa using hotheru
        simp [hne]
      · rw [if_neg hany]
        exact List.mem_append_left _ hother
    cases hd : hasDupKeys ((stageTiebreaker db userId week.id v).map
        (fun t => (t.weekId, t.guessPoints))) with
    | true => rfl
    | false =>
      exfalso
      have hnd : ((stageTiebreaker db userId week.id v).map
          (fun t => (t.weekId, t.guessPoints))).Nodup :=
        (hasDupKeys_eq_false_iff _).mp hd
      have heq : other = (⟨userId, week.id, v⟩ : TieBreakerRow) :=
        List.inj_on_of_nodup_map hnd hothermem hourmem
          (by simp [hotherw, hotherg])
      exact hotheru (by rw [heq])
  have hcommit : ∀ sp : List PickRow,
      commitPicksSave db sp (stageTiebreaker db userId week.id v)
        = ("tb_unique", db) := by
    intro sp
    unfold commitPicksSave tbsOk
    rw [hdup]
    simp
  simp only [picksSave, hweek, hlock, htb, htrimb, hparse, if_neg hpos,
    Bool.false_eq_true, if_false]
  exact hcommit _
def c9wWeek : WeekRow := { id := 1, seasonId := 1, weekNumber := 1, seasonType := 2, firstKickoffAt := 100 }

/-- User 2 already holds guess 44 for week 1; user 1 submits a valid pick
and the same guess 44. -/
def c9wDb : DB :=
  { seasons := [{ id := 1, year := 2024, isActive := true }]
    weeks := [c9wWeek]
    games := [{ id := 10, seasonId := 1, weekId := 1, homeTeamId := 3, awayTeamId := 4
                startTime := 200, status := .scheduled, homeScore := 0, awayScore := 0
                providerGameId := none }]
    picks := []
    users := [{ id := 1, username := "u1", firstName := "A", lastName := "A" },
              { id := 2, username := "u2", firstName := "B", lastName := "B" }]
    tiebreakers := [{ userId := 2, weekId := 1, guessPoints := 44 }] }

def c9wForm : List (String × String) := [("pick_10", "3"), ("tiebreaker", " 44 ")]

theorem c9_witness : picksSave c9wDb 1 1 50 c9wForm = ("tb_unique", c9wDb) :=
  c9_tb_unique_rollback c9wDb 1 1 50 c9wForm c9wWeek " 44 " 44
    { userId := 2, weekId := 1, guessPoints := 44 }
    (by decide) (by decide) (by decide) (by decide) (by decide) (by decide)
    (by decide) (by decide) (by decide) (by decide)
/-- C10: a non-empty tiebreaker form value that is non-numeric or parses to
a negative integer makes `picks_save` redirect with `err=tb_invalid`
before the commit point, and the session is closed without committing, so
no change from the request persists: the resulting database is exactly the
pre-request one, discarding wholesale any valid picks staged earlier in
the same request. -/
theorem c10_tb_invalid_discards (db : DB) (userId weekId : Nat) (now : Int)
    (form : List (String × String)) (week : WeekRow) (raw : String)
    (hweek : db.weeks.find? (fun w => w.id == weekId) = some week)
    (hlock : weekIsLocked week now = false)
    (htb : lookupA form "tiebreaker" = some raw)
    (htrim : strTrim raw ≠ "")
    (hbad : parsePyInt (strTrim raw) = none ∨
      ∃ v, parsePyInt (strTrim raw) = some v ∧ v < 0) :
    picksSave db userId weekId now form = ("tb_invalid", db) := by
  have htrimb : (strTrim raw != "") = true := by simpa using htrim
  rcases hbad with hnone | ⟨v, hsome, hneg⟩
  · simp only [picksSave, hweek, hlock, htb, htrimb, hnone,
      Bool.false_eq_true, if_false]
    simp
  · simp only [picksSave, hweek, hlock, htb, htrimb, hsome, if_pos hneg,
      Bool.false_eq_true, if_false]
    simp

def c10wWeek : WeekRow := { id := 7, seasonId := 1, weekNumber := 2, seasonType := 2, firstKickoffAt := 500 }

/-- The request stages a valid pick (game 20, home team 5) alongside the
offending tiebreaker value. -/
def c10wDb : DB :=
  { seasons := [{ id := 1, year := 2024, isActive := true }]
    weeks := [c10wWeek]
    games := [{ id := 20, seasonId := 1, weekId := 7, homeTeamId := 5, awayTeamId := 6
                startTime := 600, status := .scheduled, homeScore := 0, awayScore := 0
                providerGameId := none }]
    picks := []
    users := [{ id := 3, username := "u3", firstName := "C", lastName := "C" }]
    tiebreakers := [] }

theorem c10_witness :
    picksSave c10wDb 3 7 400 [("pick_20", "5"), ("tiebreaker", "abc")]
      = ("tb_invalid", c10wDb) ∧
    picksSave c10wDb 3 7 400 [("pick_20", "5"), ("tiebreaker", "-7")]
      = ("tb_invalid", c10wDb) := by
  constructor
  · exact c10_tb_invalid_discards c10wDb 3 7 400
      [("pick_20", "5"), ("tiebreaker", "abc")] c10wWeek "abc"
      (by decide) (by decide) (by decide) (by decide) (Or.inl (by decide))
  · exact c10_tb_invalid_discards c10wDb 3 7 400
      [("pick_20", "5"), ("tiebreaker", "-7")] c10wWeek "-7"
      (by decide) (by decide) (by decide) (by decide)
      (Or.inr ⟨-7, by decide, by decide⟩)
